import Mathlib

/-!
# Verification of the expense_toolkit ingestion pipeline

A shallow embedding, in Lean 4, of the core pipeline of the
`expense_toolkit` repository:

* `app/services/bank_parsers.py` — per-bank statement parsers and the
  fingerprint generator `generate_external_id` (an MD5-based dedup key);
* `app/services/import_service.py` — `process_import`, the import
  orchestrator;
* `app/routers/queue.py` — the rule engine (`apply_rules`,
  `_matches_rule`), the duplicate finder (`find_duplicates`) and the
  merge engine (`merge_expenses`);
* `app/services/notification_parser.py` — the push-notification parser.

Python values are modelled as follows: `datetime.date` by `PDate`;
`decimal.Decimal` by `Dec` (a scaled integer, preserving the scale so
that `str(Decimal)` is representable); machine floats by `F64`, an
exact significand–exponent pair obtained by IEEE-754 binary64
round-to-nearest (`flOfParts`, `f64Add`); fallible code by
`Except`/`Option`.  The database session is modelled by an explicit
`DB` record threaded through the operations; autoincrement ids by
explicit counters.
-/

namespace ExpenseToolkit

/-! ## Calendar dates

Models `datetime.date`.  `pdateStr` is `str(date)` (ISO format); the
order used by `min(...)` in `merge_expenses` is calendar order, which on
valid dates coincides with lexicographic order on `(y, m, d)`. -/

structure PDate where
  y : ℕ
  m : ℕ
  d : ℕ
deriving DecidableEq, Repr

/-- Numeric key realising calendar order on valid dates (`m ≤ 12`, `d ≤ 31`). -/
def PDate.key (t : PDate) : ℕ := t.y * 10000 + t.m * 100 + t.d

def PDate.le (a b : PDate) : Bool := a.key ≤ b.key

/-- Left-pad a numeral with zeros, as `"%02d"`/`"%04d"` formatting does. -/
def padNum (width : ℕ) (n : ℕ) : String :=
  let s := toString n
  let pad := width - s.length
  String.mk (List.replicate pad '0') ++ s

/-- `str(date)`: ISO `YYYY-MM-DD`. -/
def pdateStr (t : PDate) : String :=
  padNum 4 t.y ++ "-" ++ padNum 2 t.m ++ "-" ++ padNum 2 t.d

/-- Earliest date of a nonempty list: models `min(dates)`. -/
def minDate (d : PDate) (rest : List PDate) : PDate :=
  rest.foldl (fun acc x => if x.key < acc.key then x else acc) d

/-! ## Python `Decimal`

`Dec` models a finite `decimal.Decimal` with a nonpositive exponent:
`units × 10^(-scale)`.  This covers every decimal the pipeline builds
(amounts parsed from bank files with at most a few fraction digits).
The scale is kept because `str(Decimal("5.00")) = "5.00"` and those
strings feed the MD5 fingerprint.  `NaN`/`Infinity` special values are
outside the modelled range (no claim evaluates them). -/

structure Dec where
  units : ℤ
  scale : ℕ
deriving DecidableEq, Repr

/-- Numeric value of a `Dec`; Python compares `Decimal`s (and the DB
compares `Numeric` columns) by this value. -/
def Dec.val (d : Dec) : ℚ := (d.units : ℚ) / (10 : ℚ) ^ d.scale

/-- `abs(Decimal)`. -/
def Dec.abs (d : Dec) : Dec := ⟨|d.units|, d.scale⟩

/-- Unary minus on `Decimal` (the sign of a zero is not tracked; its
numeric value is unaffected). -/
def Dec.neg (d : Dec) : Dec := ⟨-d.units, d.scale⟩

/-- `str(Decimal)` for the modelled range: plain (non-scientific)
notation, which is what Python prints for exponents in `[-6, 0]`. -/
def decStr (d : Dec) : String :=
  let sign := if d.units < 0 then "-" else ""
  let n := d.units.natAbs
  if d.scale = 0 then sign ++ toString n
  else
    let p := (10 : ℕ) ^ d.scale
    sign ++ toString (n / p) ++ "." ++ padNum d.scale (n % p)

/-! ## Parsing decimal strings: `decimal.Decimal(str)`

`pyDecimal` models the `Decimal` string constructor on ordinary finite
numerals: an optional sign, then digits with at most one decimal point
and at least one digit.  Exponent forms and the `NaN`/`Infinity`
keywords are outside the modelled range.  `none` models
`decimal.InvalidOperation`. -/

def isDigitChar (c : Char) : Bool := '0' ≤ c ∧ c ≤ '9'

def digitsToNat (l : List Char) : ℕ :=
  l.foldl (fun acc c => acc * 10 + (c.toNat - '0'.toNat)) 0

/-- Parse an unsigned coefficient `digits [ '.' digits ]` (one of the two
digit groups may be empty, but not both). -/
def parseUnsignedDec (l : List Char) : Option Dec :=
  let intPart := l.takeWhile isDigitChar
  let rest := l.dropWhile isDigitChar
  match rest with
  | [] => if intPart.isEmpty then none else some ⟨digitsToNat intPart, 0⟩
  | '.' :: frac =>
      if frac.all isDigitChar ∧ ¬(intPart.isEmpty ∧ frac.isEmpty) then
        some ⟨digitsToNat intPart * 10 ^ frac.length + digitsToNat frac, frac.length⟩
      else none
  | _ => none

def pyDecimal (s : String) : Option Dec :=
  match s.data with
  | '-' :: rest => (parseUnsignedDec rest).map Dec.neg
  | '+' :: rest => parseUnsignedDec rest
  | rest => parseUnsignedDec rest

/-! ## MD5

`generate_external_id` (bank_parsers.py line 39) hashes
`f"{date}|{amount}|{description}"` with `hashlib.md5` and keeps the
first 16 hex characters.  This is a full implementation of MD5
(RFC 1321) over byte lists, with 32-bit words as `ℕ` reduced mod
`2^32`. -/

def u32mask : ℕ := 4294967296

def add32 (a b : ℕ) : ℕ := (a + b) % u32mask

/-- Rotate a 32-bit word left by `s` bits. -/
def rotl32 (x s : ℕ) : ℕ := (x * 2 ^ s) % u32mask + x / 2 ^ (32 - s)

/-- Bitwise complement of a 32-bit word. -/
def not32 (x : ℕ) : ℕ := (u32mask - 1) - x % u32mask

/-- The 64 sine-derived round constants `K[i] = ⌊2^32·|sin(i+1)|⌋`. -/
def md5K : List ℕ :=
  [0xd76aa478, 0xe8c7b756, 0x242070db, 0xc1bdceee,
   0xf57c0faf, 0x4787c62a, 0xa8304613, 0xfd469501,
   0x698098d8, 0x8b44f7af, 0xffff5bb1, 0x895cd7be,
   0x6b901122, 0xfd987193, 0xa679438e, 0x49b40821,
   0xf61e2562, 0xc040b340, 0x265e5a51, 0xe9b6c7aa,
   0xd62f105d, 0x02441453, 0xd8a1e681, 0xe7d3fbc8,
   0x21e1cde6, 0xc33707d6, 0xf4d50d87, 0x455a14ed,
   0xa9e3e905, 0xfcefa3f8, 0x676f02d9, 0x8d2a4c8a,
   0xfffa3942, 0x8771f681, 0x6d9d6122, 0xfde5380c,
   0xa4beea44, 0x4bdecfa9, 0xf6bb4b60, 0xbebfbc70,
   0x289b7ec6, 0xeaa127fa, 0xd4ef3085, 0x04881d05,
   0xd9d4d039, 0xe6db99e5, 0x1fa27cf8, 0xc4ac5665,
   0xf4292244, 0x432aff97, 0xab9423a7, 0xfc93a039,
   0x655b59c3, 0x8f0ccc92, 0xffeff47d, 0x85845dd1,
   0x6fa87e4f, 0xfe2ce6e0, 0xa3014314, 0x4e0811a1,
   0xf7537e82, 0xbd3af235, 0x2ad7d2bb, 0xeb86d391]

/-- The per-round left-rotation amounts. -/
def md5S : List ℕ :=
  [7, 12, 17, 22, 7, 12, 17, 22, 7, 12, 17, 22, 7, 12, 17, 22,
   5, 9, 14, 20, 5, 9, 14, 20, 5, 9, 14, 20, 5, 9, 14, 20,
   4, 11, 16, 23, 4, 11, 16, 23, 4, 11, 16, 23, 4, 11, 16, 23,
   6, 10, 15, 21, 6, 10, 15, 21, 6, 10, 15, 21, 6, 10, 15, 21]

/-- One MD5 round: mixing function and message-word index for round `i`. -/
def md5Mix (i b c d : ℕ) : ℕ × ℕ :=
  if i < 16 then ((b.land c).lor ((not32 b).land d), i)
  else if i < 32 then ((d.land b).lor ((not32 d).land c), (5 * i + 1) % 16)
  else if i < 48 then ((b.xor c).xor d, (3 * i + 5) % 16)
  else (c.xor (b.lor (not32 d)), (7 * i) % 16)

/-- Process one 16-word chunk starting from state `(a, b, c, d)`. -/
def md5Chunk (m : List ℕ) (st : ℕ × ℕ × ℕ × ℕ) : ℕ × ℕ × ℕ × ℕ :=
  let (a0, b0, c0, d0) := st
  let final := (List.range 64).foldl
    (fun (s : ℕ × ℕ × ℕ × ℕ) i =>
      let (a, b, c, d) := s
      let (f, g) := md5Mix i b c d
      let f' := add32 (add32 (add32 f a) (md5K.getD i 0)) (m.getD g 0)
      (d, add32 b (rotl32 f' (md5S.getD i 0)), b, c))
    (a0, b0, c0, d0)
  let (a, b, c, d) := final
  (add32 a0 a, add32 b0 b, add32 c0 c, add32 d0 d)

/-- MD5 padding: append `0x80`, zero bytes to 56 mod 64, then the bit
length as a 64-bit little-endian quantity. -/
def md5Pad (msg : List ℕ) : List ℕ :=
  let len := msg.length
  let zeros := (56 + 64 - (len + 1) % 64) % 64
  let bitLen := (len * 8) % 2 ^ 64
  msg ++ [0x80] ++ List.replicate zeros 0 ++
    (List.range 8).map (fun i => bitLen / 2 ^ (8 * i) % 256)

/-- Split padded bytes into 16-word little-endian chunks. -/
def md5Words (bytes : List ℕ) : List ℕ :=
  match bytes with
  | b0 :: b1 :: b2 :: b3 :: rest =>
      (b0 + 256 * b1 + 65536 * b2 + 16777216 * b3) :: md5Words rest
  | _ => []

/-- Split a word list into 16-word blocks (padding makes the length a
multiple of 16, so nothing is dropped). -/
def chunk16 : List ℕ → List (List ℕ)
  | w0 :: w1 :: w2 :: w3 :: w4 :: w5 :: w6 :: w7 ::
    w8 :: w9 :: w10 :: w11 :: w12 :: w13 :: w14 :: w15 :: rest =>
      [w0, w1, w2, w3, w4, w5, w6, w7, w8, w9, w10, w11, w12, w13, w14, w15]
        :: chunk16 rest
  | _ => []

def md5Chunks (words : List ℕ) (st : ℕ × ℕ × ℕ × ℕ) : ℕ × ℕ × ℕ × ℕ :=
  (chunk16 words).foldl (fun s c => md5Chunk c s) st

def hexDigit (n : ℕ) : Char :=
  if n < 10 then Char.ofNat ('0'.toNat + n) else Char.ofNat ('a'.toNat + n - 10)

/-- A 32-bit word as 8 hex characters, little-endian byte order. -/
def wordHex (w : ℕ) : List Char :=
  (List.range 4).flatMap (fun i =>
    let b := w / 2 ^ (8 * i) % 256
    [hexDigit (b / 16), hexDigit (b % 16)])

/-- The MD5 hex digest of a byte list. -/
def md5Hex (msg : List ℕ) : String :=
  let (a, b, c, d) :=
    md5Chunks (md5Words (md5Pad msg)) (0x67452301, 0xefcdab89, 0x98badcfe, 0x10325476)
  String.mk (wordHex a ++ wordHex b ++ wordHex c ++ wordHex d)

/-- Bytes of an ASCII string (every string hashed by the pipeline's
fingerprints is ASCII, where UTF-8 bytes coincide with code points). -/
def strBytes (s : String) : List ℕ := s.data.map Char.toNat

/-- `BankParser.generate_external_id` (bank_parsers.py lines 39–43): the
MD5 of `f"{transaction_date}|{amount}|{raw_description}"`, truncated to
16 hex characters. -/
def generateExternalId (d : PDate) (a : Dec) (desc : String) : String :=
  (md5Hex (strBytes (pdateStr d ++ "|" ++ decStr a ++ "|" ++ desc))).take 16

/-! ## IEEE-754 binary64 ("Python float")

`merge_expenses` (queue.py line 566) computes
`sum(float(raw.amount) for raw in raw_expenses)` with machine floats,
and `parse_notification` returns `float(amount)`.  A finite float is
modelled exactly as `F64`: an integer significand times a power of two.
`flOfParts` is round-to-nearest, ties-to-even at 53 significant bits —
the behaviour of `float(Decimal)` — and `f64Add` is IEEE float addition
(exact sum, then the same rounding).  Subnormals and overflow are far
outside the magnitudes the pipeline handles.  Everything is integer
arithmetic, so the kernel can evaluate it. -/

structure F64 where
  sig : ℤ
  exp : ℤ
deriving DecidableEq, Repr

/-- `⌊log₂ n⌋` by fuel-bounded structural recursion (so that it reduces
inside the kernel; `fuel ≥ n` suffices). -/
def log2Fuel : ℕ → ℕ → ℕ
  | 0, _ => 0
  | fuel + 1, n => if n ≤ 1 then 0 else 1 + log2Fuel fuel (n / 2)

/-- Least `k` with `b ≤ a * 2^k` (for `0 < a ≤ b`), by fuel. -/
def clog2Fuel : ℕ → ℕ → ℕ → ℕ
  | 0, _, _ => 0
  | fuel + 1, a, b => if b ≤ a then 0 else 1 + clog2Fuel fuel (a * 2) b

/-- Round the fraction `num / den` to an integer, half to even. -/
def rndHalfEvenNat (num den : ℕ) : ℕ :=
  let q := num / den
  let r := num % den
  if 2 * r < den then q
  else if den < 2 * r then q + 1
  else if q % 2 = 0 then q else q + 1

/-- Round the positive fraction `a / b` to the nearest binary64 value:
find the binade exponent `e` with `2^e ≤ a/b < 2^(e+1)`, round to a
53-bit significand half-to-even, and reassemble. -/
def flPosParts (a b : ℕ) : F64 :=
  let e : ℤ := if b ≤ a then (log2Fuel a (a / b) : ℤ) else -(clog2Fuel b a b : ℤ)
  if 52 ≤ e then
    let k := (e - 52).toNat
    ⟨(rndHalfEvenNat a (b * 2 ^ k) : ℤ) * 2 ^ k, 0⟩
  else
    let k := (52 - e).toNat
    ⟨(rndHalfEvenNat (a * 2 ^ k) b : ℤ), -(k : ℤ)⟩

/-- Nearest binary64 value of the fraction `n / d` (normal range). -/
def flOfParts (n : ℤ) (d : ℕ) : F64 :=
  if n = 0 then ⟨0, 0⟩
  else if n < 0 then
    let f := flPosParts n.natAbs d
    ⟨-f.sig, f.exp⟩
  else flPosParts n.natAbs d

/-- `float(Decimal)`: the nearest double of the decimal's value. -/
def Dec.toFloat (d : Dec) : F64 := flOfParts d.units (10 ^ d.scale)

/-- Renormalise an exact significand/exponent pair to at most 53
significant bits (round half to even). -/
def f64Norm (sig : ℤ) (exp : ℤ) : F64 :=
  let a := sig.natAbs
  let bits := if a = 0 then 0 else log2Fuel a a + 1
  if bits ≤ 53 then ⟨sig, exp⟩
  else
    let k := bits - 53
    let m := rndHalfEvenNat a (2 ^ k)
    ⟨(if sig < 0 then -(m : ℤ) else (m : ℤ)), exp + k⟩

/-- IEEE binary64 addition: align, add exactly, round to 53 bits. -/
def f64Add (x y : F64) : F64 :=
  let c := min x.exp y.exp
  f64Norm (x.sig * 2 ^ (x.exp - c).toNat + y.sig * 2 ^ (y.exp - c).toNat) c

/-- Python `sum(...)` over floats: a left fold of float additions
starting from `0`. -/
def pyFloatSum (l : List F64) : F64 := l.foldl f64Add ⟨0, 0⟩

/-- The exact value of an `F64` as a fraction `(numerator, denominator)`. -/
def F64.pair (f : F64) : ℤ × ℕ :=
  if 0 ≤ f.exp then (f.sig * 2 ^ f.exp.toNat, 1) else (f.sig, 2 ^ (-f.exp).toNat)

/-! ## Data model

Rows of the tables touched by the embedded operations, mirroring
`app/models/*.py`.  Columns that none of the embedded operations read
(timestamps, notes, geolocation, the raw expense's review-mode fields)
are omitted.  An `Expense.amount` can hold either a DB decimal or — on
the merge path, which stores a Python float — an `F64`; the database
compares `Numeric` columns by numeric value, modelled by `amtEqv`. -/

inductive Amt where
  | dec (d : Dec)
  | flt (f : F64)
deriving DecidableEq, Repr

/-- Value of an amount as a fraction `(numerator, denominator)`. -/
def Amt.pair : Amt → ℤ × ℕ
  | .dec d => (d.units, 10 ^ d.scale)
  | .flt f => f.pair

/-- Numeric equality of amounts (cross-multiplied). -/
def amtEqv (a b : Amt) : Bool := a.pair.1 * (b.pair.2 : ℤ) = b.pair.1 * (a.pair.2 : ℤ)

/-- `models/bank_account.py : BankAccount` (fields used by the import). -/
structure AccountRow where
  id : ℕ
  name : String
  bank_name : String
  account_type : String
deriving DecidableEq, Repr

/-- `models/expense.py : RawExpense` — a pending record. -/
structure RawRow where
  id : ℕ
  bank_account_id : ℕ
  external_id : String
  transaction_date : PDate
  amount : Dec
  currency : String
  raw_merchant_name : Option String
  raw_description : Option String
  source : String
  source_file : Option String
deriving DecidableEq, Repr

/-- `models/expense.py : Expense` — a finalized record. -/
structure ExpenseRow where
  id : ℕ
  raw_expense_id : Option ℕ
  bank_account_id : ℕ
  transaction_date : PDate
  amount : Amt
  currency : String
  merchant_alias_id : Option ℕ
  category_id : Option ℕ
  description : Option String
  type : Option String
  archived : Bool
deriving DecidableEq, Repr

/-- `models/merchant.py : MerchantAlias`. -/
structure MerchantRow where
  id : ℕ
  raw_name : String
  display_name : String
  default_category_id : Option ℕ
deriving DecidableEq, Repr

structure TagRow where
  id : ℕ
  name : String
deriving DecidableEq, Repr

structure ExpenseTagRow where
  expense_id : ℕ
  tag_id : ℕ
deriving DecidableEq, Repr

/-- The `save_data` JSON bundle of a save rule (queue.py lines 331–336
reads `merchant_name` and `category_id` by required key, the rest with
`.get` defaults). -/
structure SaveData where
  merchant_name : String
  category_id : Option ℕ
  description : Option String
  tags : Option (List String)
  type : Option String
deriving DecidableEq, Repr

/-- `models/rule.py : Rule`. -/
structure RuleRow where
  id : ℕ
  active : Bool
  field : String
  match_type : String
  match_value : String
  action : String
  save_data : SaveData
deriving DecidableEq, Repr

/-- `models/import_history.py : ImportHistory`. -/
structure ImportRec where
  status : String
  bank_account_id : Option ℕ
  records_imported : Option ℕ
  records_skipped : Option ℕ
  error_message : Option String
  stored_filename : Option String
deriving DecidableEq, Repr

/-- The session state: table contents (each list in insertion order, the
order in which unordered queries return rows) plus autoincrement
counters. -/
structure DB where
  accounts : List AccountRow
  raws : List RawRow
  expenses : List ExpenseRow
  merchants : List MerchantRow
  tags : List TagRow
  expense_tags : List ExpenseTagRow
  rules : List RuleRow
  categories : List ℕ
  nextAccountId : ℕ
  nextRawId : ℕ
  nextExpenseId : ℕ
  nextMerchantId : ℕ
  nextTagId : ℕ
deriving DecidableEq, Repr

/-! ## Import orchestrator — `app/services/import_service.py`

A parsed transaction dict (the output shape of every parser in
`bank_parsers.py`). -/

structure Tx where
  transaction_date : PDate
  amount : Dec
  currency : String
  raw_merchant_name : String
  raw_description : String
  external_id : String
deriving DecidableEq, Repr

/-- `get_or_create_bank_account` (import_service.py lines 107–122). -/
def getOrCreateBankAccount (bankName : String) (db : DB) : AccountRow × DB :=
  match db.accounts.find? (fun a => a.bank_name = bankName) with
  | some a => (a, db)
  | none =>
      let a : AccountRow :=
        { id := db.nextAccountId, name := bankName ++ " Account",
          bank_name := bankName, account_type := "checking" }
      (a, { db with accounts := db.accounts ++ [a],
                    nextAccountId := db.nextAccountId + 1 })

/-- State of the per-transaction loop of `process_import`. -/
structure ImportLoopState where
  imported : ℕ
  skipped : ℕ
  seen : List String
  db : DB
deriving DecidableEq, Repr

/-- One iteration of the loop at import_service.py lines 55–88: skip if
the `external_id` was already seen in this run, else skip if a
`RawExpense` with this `(bank_account_id, external_id)` exists, else
insert a new `RawExpense`. -/
def importTxStep (accId : ℕ) (storedFile : Option String) (s : ImportLoopState)
    (tx : Tx) : ImportLoopState :=
  if tx.external_id ∈ s.seen then
    { s with skipped := s.skipped + 1 }
  else if s.db.raws.any (fun r =>
      r.bank_account_id = accId ∧ r.external_id = tx.external_id) then
    { s with skipped := s.skipped + 1, seen := tx.external_id :: s.seen }
  else
    let row : RawRow :=
      { id := s.db.nextRawId, bank_account_id := accId,
        external_id := tx.external_id,
        transaction_date := tx.transaction_date, amount := tx.amount,
        currency := tx.currency,
        raw_merchant_name := some tx.raw_merchant_name,
        raw_description := some tx.raw_description,
        source := "xlsx_import", source_file := storedFile }
    { imported := s.imported + 1, skipped := s.skipped,
      seen := tx.external_id :: s.seen,
      db := { s.db with raws := s.db.raws ++ [row],
                        nextRawId := s.db.nextRawId + 1 } }

/-- Decidable equality for `Except` results (used to evaluate outcomes
of the embedded fallible operations with `decide`). -/
def exceptDecEq {ε α : Type} [DecidableEq ε] [DecidableEq α] :
    DecidableEq (Except ε α) := fun x y =>
  match x, y with
  | .ok a, .ok b =>
      if h : a = b then isTrue (by rw [h])
      else isFalse (fun hh => by cases hh; exact h rfl)
  | .error a, .error b =>
      if h : a = b then isTrue (by rw [h])
      else isFalse (fun hh => by cases hh; exact h rfl)
  | .ok _, .error _ => isFalse (fun hh => by cases hh)
  | .error _, .ok _ => isFalse (fun hh => by cases hh)

instance {ε α : Type} [DecidableEq ε] [DecidableEq α] :
    DecidableEq (Except ε α) := exceptDecEq

/-- Result of one `process_import` run: the final `ImportHistory` row,
the committed session state, and the returned triple (or the re-raised
exception). -/
structure ImportResult where
  record : ImportRec
  db : DB
  outcome : Except String (ℕ × ℕ × String)
deriving DecidableEq, Repr

/-- `process_import` (import_service.py lines 18–104).  The file is
represented by the outcome of `parse_bank_file` on it: either a typed
error (unknown format / structural failure, re-raised after marking the
job failed) or `(bank_name, transactions)`.  Every exit path of the
source commits, so `ImportResult.db` is the state other readers see.
On the failure path nothing has been added to the session — the
exception is raised before any `db.add` — so only the job row changes. -/
def processImport (parsed : Except String (String × List Tx)) (rec : ImportRec)
    (db : DB) : ImportResult :=
  let rec1 := { rec with status := "processing" }
  match parsed with
  | .error e =>
      { record := { rec1 with status := "failed", error_message := some e },
        db := db, outcome := .error e }
  | .ok (bankName, txs) =>
      let (acc, db1) := getOrCreateBankAccount bankName db
      let rec2 := if rec1.bank_account_id = none
        then { rec1 with bank_account_id := some acc.id } else rec1
      let s0 : ImportLoopState :=
        { imported := 0, skipped := 0, seen := [], db := db1 }
      let s := txs.foldl (importTxStep acc.id rec2.stored_filename) s0
      { record := { rec2 with
          status := "completed",
          records_imported := some s.imported,
          records_skipped := some s.skipped },
        db := s.db, outcome := .ok (s.imported, s.skipped, bankName) }

/-! ## Queue router — `app/routers/queue.py`

A raw expense is "in the queue" (pending) when no `Expense` row links to
it (the `NOT IN (SELECT raw_expense_id FROM expenses)` filter used at
queue.py lines 36–40, 312–316 and 428–432). -/

def isProcessed (db : DB) (rawId : ℕ) : Bool :=
  db.expenses.any (fun e => e.raw_expense_id = some rawId)

def queueRaws (db : DB) : List RawRow :=
  db.raws.filter (fun r => ¬ isProcessed db r.id)

/-- The observable behaviour of `re.search(pattern, value, re.IGNORECASE)`
as used by `_matches_rule`: an external component that either raises
`re.error` (`.error ()`, e.g. the pattern fails to compile) or reports
whether a match exists.  The rule engine's properties hold for every
such engine. -/
def RegexEngine : Type := String → String → Except Unit Bool

/-- `getattr(raw_expense, rule.field, None)` followed by `str(...)`
(queue.py lines 397–402): the string-coerced value of the named column,
or `none` when the attribute is missing or its value is `None`.  Columns
not modelled here (`type`, review-mode fields) are `None`-valued on a
freshly imported row, so they also map to `none`. -/
def rawGetAttr (r : RawRow) (f : String) : Option String :=
  if f = "id" then some (toString r.id)
  else if f = "bank_account_id" then some (toString r.bank_account_id)
  else if f = "external_id" then some r.external_id
  else if f = "transaction_date" then some (pdateStr r.transaction_date)
  else if f = "amount" then some (decStr r.amount)
  else if f = "currency" then some r.currency
  else if f = "raw_merchant_name" then r.raw_merchant_name
  else if f = "raw_description" then r.raw_description
  else if f = "source" then some r.source
  else if f = "source_file" then r.source_file
  else none

/-- `_matches_rule` (queue.py lines 394–418). -/
def matchesRule (engine : RegexEngine) (raw : RawRow) (rule : RuleRow) : Bool :=
  match rawGetAttr raw rule.field with
  | none => false
  | some v =>
      if rule.match_type = "exact" then v = rule.match_value
      else if rule.match_type = "regex" then
        if 500 < rule.match_value.length then false
        else
          match engine rule.match_value v with
          | .ok b => b
          | .error _ => false
      else false

/-- Get-or-create of a `MerchantAlias` by display name (queue.py lines
341–352 and 572–583). -/
def getOrCreateMerchant (displayName rawName : String) (categoryId : Option ℕ)
    (db : DB) : MerchantRow × DB :=
  match db.merchants.find? (fun m => m.display_name = displayName) with
  | some m => (m, db)
  | none =>
      let m : MerchantRow :=
        { id := db.nextMerchantId, raw_name := rawName,
          display_name := displayName, default_category_id := categoryId }
      (m, { db with merchants := db.merchants ++ [m],
                    nextMerchantId := db.nextMerchantId + 1 })

/-- The get-or-create tag loop shared by the save paths (queue.py lines
371–379, 602–610). -/
def addTags (expenseId : ℕ) (tagNames : List String) (db : DB) : DB :=
  tagNames.foldl
    (fun db tn =>
      match db.tags.find? (fun t => t.name = tn) with
      | some t =>
          { db with expense_tags := db.expense_tags ++ [⟨expenseId, t.id⟩] }
      | none =>
          let t : TagRow := ⟨db.nextTagId, tn⟩
          { db with tags := db.tags ++ [t], nextTagId := db.nextTagId + 1,
                    expense_tags := db.expense_tags ++ [⟨expenseId, t.id⟩] })
    db

/-- The `save` action of a rule (queue.py lines 330–381): resolve or
create the merchant alias (Python truthiness: an empty merchant name
skips the alias; a blank `raw_merchant_name` falls back to the rule's
merchant name), create the finalized `Expense` from the rule's
`save_data`, then attach tags. -/
def ruleSaveAction (raw : RawRow) (sd : SaveData) (db : DB) : DB :=
  let (mid, db1) :=
    if sd.merchant_name = "" then (none, db)
    else
      let rawName :=
        match raw.raw_merchant_name with
        | some s => if s = "" then sd.merchant_name else s
        | none => sd.merchant_name
      let (m, db') := getOrCreateMerchant sd.merchant_name rawName sd.category_id db
      (some m.id, db')
  let e : ExpenseRow :=
    { id := db1.nextExpenseId, raw_expense_id := some raw.id,
      bank_account_id := raw.bank_account_id,
      transaction_date := raw.transaction_date, amount := .dec raw.amount,
      currency := raw.currency, merchant_alias_id := mid,
      category_id := sd.category_id,
      description := some (sd.description.getD ""), type := sd.type,
      archived := false }
  let db2 := { db1 with expenses := db1.expenses ++ [e],
                        nextExpenseId := db1.nextExpenseId + 1 }
  addTags e.id (sd.tags.getD []) db2

structure RulesOutcome where
  db : DB
  processed : ℕ
  discarded : ℕ
  saved : ℕ
deriving DecidableEq, Repr

/-- What happens once a rule has matched a record (queue.py lines
326–383): a `discard` deletes the raw expense, a `save` finalizes it via
`ruleSaveAction`; in both cases the record counts as processed and the
loop `break`s. -/
def applyRuleAction (ru : RuleRow) (raw : RawRow) (st : RulesOutcome) :
    RulesOutcome :=
  if ru.action = "discard" then
    { st with
      db := { st.db with
        raws := st.db.raws.filter (fun r => r.id ≠ raw.id) },
      processed := st.processed + 1, discarded := st.discarded + 1 }
  else if ru.action = "save" then
    { st with db := ruleSaveAction raw ru.save_data st.db,
              processed := st.processed + 1, saved := st.saved + 1 }
  else { st with processed := st.processed + 1 }

/-- The inner `for rule in active_rules` loop of `apply_rules` (queue.py
lines 324–384): try rules in order; at the first match perform the
action and `break`. -/
def applyRulesToRaw (engine : RegexEngine) (rules : List RuleRow)
    (raw : RawRow) (st : RulesOutcome) : RulesOutcome :=
  match rules with
  | [] => st
  | ru :: rest =>
      if matchesRule engine raw ru then applyRuleAction ru raw st
      else applyRulesToRaw engine rest raw st

/-- `apply_rules` (queue.py lines 302–392): filter the active rules,
snapshot the queue, and run the per-record first-match loop over it. -/
def applyRules (engine : RegexEngine) (db : DB) : RulesOutcome :=
  let active := db.rules.filter (fun r => r.active)
  if active.isEmpty then ⟨db, 0, 0, 0⟩
  else (queueRaws db).foldl (fun st raw => applyRulesToRaw engine active raw st)
    ⟨db, 0, 0, 0⟩

/-! ### Duplicate finder -/

/-- A reference to a sibling in the duplicate report: either another raw
expense (`"type": "raw"`) or a saved expense (`"type": "saved"`, which
carries its `archived` flag). -/
inductive DupRef where
  | raw (id : ℕ)
  | saved (id : ℕ) (archived : Bool)
deriving DecidableEq, Repr

/-- The first inner query of `find_duplicates` (queue.py lines 438–442):
*all* raw expenses other than this one sharing its exact date and
amount — the query is over the whole `RawExpense` table, with no
pending-only filter. -/
def otherRawDups (db : DB) (raw : RawRow) : List RawRow :=
  db.raws.filter (fun o =>
    o.id ≠ raw.id ∧ o.transaction_date = raw.transaction_date ∧
      amtEqv (.dec o.amount) (.dec raw.amount))

/-- The second inner query (queue.py lines 445–448): saved expenses
sharing the date and amount (archived ones included — no filter). -/
def savedDups (db : DB) (raw : RawRow) : List ExpenseRow :=
  db.expenses.filter (fun e =>
    e.transaction_date = raw.transaction_date ∧
      amtEqv e.amount (.dec raw.amount))

/-- The outer loop of `find_duplicates` (queue.py lines 436–488) over a
given list of pending records: a record enters the report iff one of the
two sibling sets is nonempty. -/
def findDupGo (db : DB) : List RawRow → List (ℕ × List DupRef)
  | [] => []
  | r :: rest =>
      let o := otherRawDups db r
      let s := savedDups db r
      if o.isEmpty ∧ s.isEmpty then findDupGo db rest
      else
        (r.id, o.map (fun d => DupRef.raw d.id) ++
               s.map (fun e => DupRef.saved e.id e.archived)) :: findDupGo db rest

/-- `find_duplicates` (queue.py lines 421–490).  A pure report: the
session is not modified. -/
def findDuplicates (db : DB) : List (ℕ × List DupRef) :=
  findDupGo db (queueRaws db)

/-! ### Merge engine -/

inductive MergeErr where
  | notFound (id : ℕ)
  | alreadyProcessed (id : ℕ)
  | categoryNotFound
  | emptySelection
deriving DecidableEq, Repr

/-- The validation loop of `merge_expenses` (queue.py lines 540–550):
every id must name an existing, not-yet-processed raw expense; the rows
are collected in request order.  Any failure aborts before mutating. -/
def mergeValidate (db : DB) : List ℕ → Except MergeErr (List RawRow)
  | [] => .ok []
  | i :: rest =>
      match db.raws.find? (fun r => r.id = i) with
      | none => .error (.notFound i)
      | some r =>
          if isProcessed db i then .error (.alreadyProcessed i)
          else (mergeValidate db rest).map (r :: ·)

/-- `merge_expenses` (queue.py lines 529–630).  The merged amount is
`sum(float(raw.amount) for raw in raw_expenses)` — machine-float
arithmetic (line 566) — while each archived child keeps its original
decimal amount.  `.error .emptySelection` models the uncaught
`ValueError` that `min()` raises on an empty selection.  Returns the
committed state and the new expense's id. -/
def mergeExpenses (ids : List ℕ) (ed : SaveData) (db : DB) :
    Except MergeErr (DB × ℕ) :=
  match mergeValidate db ids with
  | .error e => .error e
  | .ok raws =>
      if (match ed.category_id with
          | some c => ¬ db.categories.contains c
          | none => false : Bool) then .error .categoryNotFound
      else
        match raws with
        | [] => .error .emptySelection
        | r0 :: rest =>
            let total : F64 := pyFloatSum ((r0 :: rest).map (fun r => r.amount.toFloat))
            let earliest := minDate r0.transaction_date
              (rest.map (fun r => r.transaction_date))
            let (mid, db1) :=
              if ed.merchant_name = "" then (none, db)
              else
                let (m, db') := getOrCreateMerchant ed.merchant_name
                  ed.merchant_name ed.category_id db
                (some m.id, db')
            let merged : ExpenseRow :=
              { id := db1.nextExpenseId, raw_expense_id := none,
                bank_account_id := r0.bank_account_id,
                transaction_date := earliest, amount := .flt total,
                currency := r0.currency, merchant_alias_id := mid,
                category_id := ed.category_id,
                description := some (ed.description.getD ""),
                type := ed.type, archived := false }
            let db2 := { db1 with expenses := db1.expenses ++ [merged],
                                  nextExpenseId := db1.nextExpenseId + 1 }
            let db3 := addTags merged.id (ed.tags.getD []) db2
            let db4 := (r0 :: rest).foldl
              (fun db r =>
                let child : ExpenseRow :=
                  { id := db.nextExpenseId, raw_expense_id := some r.id,
                    bank_account_id := r.bank_account_id,
                    transaction_date := r.transaction_date,
                    amount := .dec r.amount, currency := r.currency,
                    merchant_alias_id := none, category_id := none,
                    description := none, type := none, archived := true }
                { db with expenses := db.expenses ++ [child],
                          nextExpenseId := db.nextExpenseId + 1 })
              db3
            .ok (db4, merged.id)

/-! ## Bank parsers — `app/services/bank_parsers.py`

A pandas cell, as the parsers see one: missing (`NaN`/`None`), a string,
a number, or a spreadsheet datetime.  A numeric cell carries the decimal
that `Decimal(str(x))` constructs from it — `str` of a float is its
shortest round-trip decimal representation, so for the cells these files
contain (at most two fraction digits) that decimal is the cell's value
as written. -/

inductive Cell where
  | na
  | str (s : String)
  | num (d : Dec)
  | date (d : PDate)
deriving DecidableEq, Repr

/-- `str(cell)` (`str(nan)` is `"nan"`; a datetime cell stringifies via
its date — only ever applied to date cells in date columns here). -/
def cellStr : Cell → String
  | .na => "nan"
  | .str s => s
  | .num d => decStr d
  | .date d => pdateStr d

/-- `Decimal(str(cell))`: fails (`InvalidOperation`) on a non-numeric
string.  A `NaN` cell actually yields `Decimal("nan")`, a quiet NaN —
outside `Dec`'s range and never exercised by a claim; it is mapped to an
arbitrary in-range decimal rather than to an error, because no exception
is raised there. -/
def cellDecimal : Cell → Option Dec
  | .str s => pyDecimal s
  | .num d => some d
  | .na => some ⟨0, 0⟩
  | .date d => pyDecimal (pdateStr d)

/-- Exceptions that can escape a parser. -/
inductive PyErr where
  | invalidOperation
  | indexError
  | valueError (msg : String)
deriving DecidableEq, Repr

/-- Python `str.split()[0]`: first whitespace-separated word, raising
`IndexError` on a whitespace-only string. -/
def pySplitFirst (s : String) : Option String :=
  let w := (s.data.dropWhile Char.isWhitespace).takeWhile (fun c => ¬ c.isWhitespace)
  if w.isEmpty then none else some (String.mk w)

/-- Python `str.strip()`. -/
def pyStrip (s : String) : String :=
  String.mk ((s.data.dropWhile Char.isWhitespace).reverse.dropWhile Char.isWhitespace).reverse

def daysInMonth (y m : ℕ) : ℕ :=
  if m = 2 then
    if y % 4 = 0 ∧ (y % 100 ≠ 0 ∨ y % 400 = 0) then 29 else 28
  else if m = 4 ∨ m = 6 ∨ m = 9 ∨ m = 11 then 30
  else 31

/-- Validity check performed by `datetime` construction inside
`strptime`. -/
def validDate (y m d : ℕ) : Bool :=
  1 ≤ m ∧ m ≤ 12 ∧ 1 ≤ d ∧ d ≤ daysInMonth y m ∧ 1 ≤ y ∧ y ≤ 9999

def allDigits (l : List Char) : Bool := ¬ l.isEmpty ∧ l.all isDigitChar

/-- `datetime.strptime(s, "%Y-%m-%d").date()`: year of 1–4 digits, month
and day of 1–2 digits, calendar-checked.  `none` is the caught
`ValueError`. -/
def parseDateYMD (s : String) : Option PDate :=
  match s.data.splitOn '-' with
  | [ys, ms, ds] =>
      if allDigits ys ∧ ys.length ≤ 4 ∧ allDigits ms ∧ ms.length ≤ 2 ∧
          allDigits ds ∧ ds.length ≤ 2 ∧
          validDate (digitsToNat ys) (digitsToNat ms) (digitsToNat ds) then
        some ⟨digitsToNat ys, digitsToNat ms, digitsToNat ds⟩
      else none
  | _ => none

/-- `datetime.strptime(s, "%d/%m/%Y").date()`. -/
def parseDateDMY (s : String) : Option PDate :=
  match s.data.splitOn '/' with
  | [ds, ms, ys] =>
      if allDigits ys ∧ ys.length ≤ 4 ∧ allDigits ms ∧ ms.length ≤ 2 ∧
          allDigits ds ∧ ds.length ≤ 2 ∧
          validDate (digitsToNat ys) (digitsToNat ms) (digitsToNat ds) then
        some ⟨digitsToNat ys, digitsToNat ms, digitsToNat ds⟩
      else none
  | _ => none

/-- Substring test (`sub in s`). -/
def strContainsAux (sub : List Char) : List Char → Bool
  | [] => sub.isEmpty
  | c :: rest => sub.isPrefixOf (c :: rest) ∨ strContainsAux sub rest

def strContains (s sub : String) : Bool := strContainsAux sub.data s.data

/-- Python `str.replace(pat, rep)`: replace non-overlapping occurrences
left to right.  Fuel-bounded structural recursion so the kernel can
evaluate it (the fuel is the string length; each step consumes at least
one character since no use site passes an empty pattern). -/
def replaceFuel (pat rep : List Char) : ℕ → List Char → List Char
  | 0, l => l
  | _, [] => []
  | fuel + 1, c :: rest =>
      if pat.isPrefixOf (c :: rest) then
        rep ++ replaceFuel pat rep fuel ((c :: rest).drop pat.length)
      else c :: replaceFuel pat rep fuel rest

def pyReplace (s pat rep : String) : String :=
  if pat.data.isEmpty then s
  else String.mk (replaceFuel pat.data rep.data s.data.length s.data)

/-! ### Locale-aware amount-string handling

The three distinct treatments of a string-valued amount cell in the
source. -/

/-- BankinterParser (line 161) and BankinterCreditCardParser (line 257):
unconditionally strip `.` as a thousands separator and turn `,` into the
decimal point. -/
def bankinterAmountStr (s : String) : String :=
  pyReplace (pyReplace s "." "") "," "."

/-- OpenBankParser (lines 357–368): if both `,` and `.` occur the dot is
a thousands separator; if only `,` occurs it is the decimal point;
otherwise the string is taken as-is. -/
def openBankAmountStr (s : String) : String :=
  if s.data.contains ',' ∧ s.data.contains '.' then
    pyReplace (pyReplace s "." "") "," "."
  else if s.data.contains ',' then pyReplace s "," "."
  else s

/-- The Bankinter amount parse on a string cell (lines 156–164: numeric
cells short-circuit, string cells go through `bankinterAmountStr` and
`Decimal`; any failure is caught and skips the row). -/
def bankinterCellDecimal : Cell → Option Dec
  | .num d => some d
  | c => pyDecimal (bankinterAmountStr (cellStr c))

/-- The OpenBank amount parse (lines 352–371), same shape with the
conditional disambiguation and a `strip()`. -/
def openBankCellDecimal : Cell → Option Dec
  | .num d => some d
  | c => pyDecimal (openBankAmountStr (pyStrip (cellStr c)))

/-! ### RevolutParser (lines 46–95) -/

/-- One CSV row, keyed by the columns the parser reads.  `Option Cell`
distinguishes an absent column (`row.get` returns `None`) from a present
but `NaN` cell. -/
structure RevRow where
  state : Cell
  completedDate : Option Cell
  startedDate : Option Cell
  amount : Cell
  currency : Option Cell
  description : Option Cell
  typ : Option Cell
deriving DecidableEq, Repr

/-- `RevolutParser.parse` (lines 63–95).  Non-`COMPLETED` rows and rows
with a missing or malformed date are skipped; but the amount conversion
`Decimal(str(row["Amount"]))` at line 83 is *not* inside a
`try`/`except`, so a malformed amount aborts the whole file with
`InvalidOperation`. -/
def revolutParse : List RevRow → Except PyErr (List Tx)
  | [] => .ok []
  | r :: rest =>
      if ¬ (r.state = Cell.str "COMPLETED") then revolutParse rest
      else
        match r.completedDate.orElse (fun _ => r.startedDate) with
        | none => revolutParse rest
        | some c =>
            if c = Cell.na then revolutParse rest
            else
              match pySplitFirst (cellStr c) with
              | none => .error .indexError
              | some w =>
                  match parseDateYMD w with
                  | none => revolutParse rest
                  | some dt =>
                      match cellDecimal r.amount with
                      | none => .error .invalidOperation
                      | some amt =>
                          let descCell := r.description.getD (Cell.str "")
                          let desc := cellStr (r.typ.getD (Cell.str "")) ++ " - " ++
                            cellStr descCell
                          let tx : Tx :=
                            { transaction_date := dt, amount := amt,
                              currency := cellStr (r.currency.getD (Cell.str "EUR")),
                              raw_merchant_name := cellStr descCell,
                              raw_description := desc,
                              external_id := generateExternalId dt amt desc }
                          (revolutParse rest).map (tx :: ·)

/-! ### BankinterParser (lines 98–179) -/

/-- `row.get(label)` after `df.columns` was set from the header row: the
cell at the index where the header equals the label, or `None`. -/
def rowGet (header row : List Cell) (label : String) : Option Cell :=
  match header.findIdx? (fun c => c = Cell.str label) with
  | none => none
  | some i => row.get? i

/-- The per-row loop of `BankinterParser.parse` (lines 136–177): skip on
missing/malformed date or amount, continue with the rest. -/
def bankinterGo (header : List Cell) : List (List Cell) → List Tx
  | [] => []
  | row :: rest =>
      let skip := bankinterGo header rest
      match rowGet header row "Fecha contable" with
      | none => skip
      | some fc =>
          if fc = Cell.na then skip
          else
            let dt? := match fc with
              | .date d => some d
              | c => parseDateDMY (cellStr c)
            match dt? with
            | none => skip
            | some dt =>
                match rowGet header row "Importe" with
                | none => skip
                | some ic =>
                    if ic = Cell.na then skip
                    else
                      match bankinterCellDecimal ic with
                      | none => skip
                      | some amt =>
                          let description :=
                            match rowGet header row "Descripción" with
                            | some c => cellStr c
                            | none => ""
                          let currency :=
                            match rowGet header row "Divisa" with
                            | some c => cellStr c
                            | none => "EUR"
                          { transaction_date := dt, amount := amt,
                            currency := currency,
                            raw_merchant_name := description,
                            raw_description := description,
                            external_id := generateExternalId dt amt description
                            : Tx } :: bankinterGo header rest

/-- `BankinterParser.parse` (lines 116–179): scan for the header row (a
cell containing `"Fecha contable"`); raise a `ValueError` if it is never
found; otherwise process the rows below it. -/
def bankinterParse (rows : List (List Cell)) : Except PyErr (List Tx) :=
  match rows.findIdx? (fun row =>
      row.any (fun c => strContains (cellStr c) "Fecha contable")) with
  | none => .error (.valueError "Could not find header row in Bankinter file")
  | some h => .ok (bankinterGo (rows.getD h []) (rows.drop (h + 1)))

/-! ## Notification parser — `app/services/notification_parser.py`

The pattern literals below reproduce the source byte-for-byte, including
its mojibake (the file stores `€` as `â‚¬`, `ó` as `Ã³`, and emoji as
multi-character sequences); a notification matches exactly when its text
contains the same sequences. -/

/-- Python `str.lower()` on the characters that occur here: ASCII plus
the Latin-1 uppercase range (so `Ã` lowers to `ã`, as in the deny-list
check). -/
def pyLowerChar (c : Char) : Char :=
  if 'A' ≤ c ∧ c ≤ 'Z' then Char.ofNat (c.toNat + 32)
  else if 0xC0 ≤ c.toNat ∧ c.toNat ≤ 0xDE ∧ c.toNat ≠ 0xD7 then
    Char.ofNat (c.toNat + 32)
  else c

def pyLowerStr (s : String) : String := String.mk (s.data.map pyLowerChar)

/-- `NON_EXPENSE_KEYWORDS` (lines 56–64). -/
def nonExpenseKeywords : List String :=
  ["cÃ³digo de confirmaciÃ³n", "confirmation code", "security code",
   "verificaciÃ³n", "verification", "balance", "saldo disponible"]

/-- What a pattern's `extract` lambda returns (the keys the parser
reads; `card_last_digits`/`date_str`/`time_str` of the OpenBank pattern
are extracted but never consumed, and are omitted). -/
structure NotifExtract where
  amount : String
  merchant : String
deriving DecidableEq, Repr

/-- Case-insensitively consume a literal, returning the rest. -/
def stripLitCI : List Char → List Char → Option (List Char)
  | [], l => some l
  | _, [] => none
  | a :: la, b :: lb =>
      if pyLowerChar a = pyLowerChar b then stripLitCI la lb else none

def isAmtChar (c : Char) : Bool := isDigitChar c ∨ c = ','

/-- The lazy group `(.+?)`: the shortest nonempty, newline-free prefix
whose suffix satisfies the continuation. -/
def lazyUntil (tailOk : List Char → Bool) : List Char → Option (List Char × List Char)
  | [] => none
  | c :: rest =>
      if c = '\n' then none
      else if tailOk rest then some ([c], rest)
      else (lazyUntil tailOk rest).map (fun p => (c :: p.1, p.2))

/-- `re.search`: try a match at each successive start position. -/
def searchPos (f : List Char → Option α) : List Char → Option α
  | [] => f []
  | c :: rest => (f (c :: rest)).orElse (fun _ => searchPos f rest)

/-- The character class of the `revolut_payment` pattern (the mojibake
fragments of the emoji `🍽️🚎🍕🍔🛍️💳`), as the set of its distinct
characters.  (`re.IGNORECASE` case-folding of these non-ASCII letters is
not modelled; none of them is cased in the inputs considered.) -/
def revolutEmojiClass : List Char :=
  ['ð', 'Ÿ', '½', 'ï', '¸', 'š', 'Ž',
   '•', '”', '›', '’', '³']

/-- End-of-input for Python's `$` (which also matches just before one
trailing newline). -/
def atDollar (l : List Char) : Bool := l = [] ∨ l = ['\n']

/-- `revolut_payment` (line 14):
`Has pagado ([\d,]+)\s*â‚¬ en (.+?)(?:\s*[…emoji…]|$)`. -/
def revolutPaymentAt (l : List Char) : Option NotifExtract := do
  let r1 ← stripLitCI "Has pagado ".data l
  let amt := r1.takeWhile isAmtChar
  if amt.isEmpty then none
  else
    let r2 := (r1.dropWhile isAmtChar).dropWhile Char.isWhitespace
    let r3 ← stripLitCI "â‚¬ en ".data r2
    let (grp, _) ← lazyUntil
      (fun t => atDollar t ||
        (match t.dropWhile Char.isWhitespace with
         | c :: _ => revolutEmojiClass.contains c
         | [] => false)) r3
    some { amount := pyReplace (String.mk amt) "," ".",
           merchant := pyStrip (String.mk grp) }

/-- `openbank_payment` (line 22):
`pago con tu tarjeta \*\*(\d+) el (\d+/\d+) (\d+:\d+) por ([\d,]+) EUR en (.+?)(?:\.|$)`. -/
def openbankPaymentAt (l : List Char) : Option NotifExtract := do
  let r1 ← stripLitCI "pago con tu tarjeta **".data l
  let d1 := r1.takeWhile isDigitChar
  if d1.isEmpty then none
  else do
    let r2 ← stripLitCI " el ".data (r1.dropWhile isDigitChar)
    let d2 := r2.takeWhile isDigitChar
    if d2.isEmpty then none
    else do
      let r3 ← stripLitCI "/".data (r2.dropWhile isDigitChar)
      let d3 := r3.takeWhile isDigitChar
      if d3.isEmpty then none
      else do
        let r4 ← stripLitCI " ".data (r3.dropWhile isDigitChar)
        let d4 := r4.takeWhile isDigitChar
        if d4.isEmpty then none
        else do
          let r5 ← stripLitCI ":".data (r4.dropWhile isDigitChar)
          let d5 := r5.takeWhile isDigitChar
          if d5.isEmpty then none
          else do
            let r6 ← stripLitCI " por ".data (r5.dropWhile isDigitChar)
            let amt := r6.takeWhile isAmtChar
            if amt.isEmpty then none
            else do
              let r7 ← stripLitCI " EUR en ".data (r6.dropWhile isAmtChar)
              let (grp, _) ← lazyUntil
                (fun t => atDollar t || (match t with
                  | c :: _ => c = '.'
                  | [] => false)) r7
              some { amount := pyReplace (String.mk amt) "," ".",
                     merchant := pyStrip (String.mk
                       ((pyStrip (String.mk grp)).data.reverse.dropWhile
                         (· = '.')).reverse) }

/-- `openbank_bizum_received` (line 33):
`Has recibido un Bizum de ([\d,]+) EUR de (.+?) por`. -/
def bizumReceivedAt (l : List Char) : Option NotifExtract := do
  let r1 ← stripLitCI "Has recibido un Bizum de ".data l
  let amt := r1.takeWhile isAmtChar
  if amt.isEmpty then none
  else do
    let r2 ← stripLitCI " EUR de ".data (r1.dropWhile isAmtChar)
    let (grp, _) ← lazyUntil
      (fun t => (stripLitCI " por".data t).isSome) r2
    some { amount := pyReplace (String.mk amt) "," ".",
           merchant := "Bizum from " ++ pyStrip (String.mk grp) }

/-- `openbank_bizum_sent` (line 41):
`Has enviado un Bizum de ([\d,]+) EUR a (.+?) por`. -/
def bizumSentAt (l : List Char) : Option NotifExtract := do
  let r1 ← stripLitCI "Has enviado un Bizum de ".data l
  let amt := r1.takeWhile isAmtChar
  if amt.isEmpty then none
  else do
    let r2 ← stripLitCI " EUR a ".data (r1.dropWhile isAmtChar)
    let (grp, _) ← lazyUntil
      (fun t => (stripLitCI " por".data t).isSome) r2
    some { amount := pyReplace (String.mk amt) "," ".",
           merchant := "Bizum to " ++ pyStrip (String.mk grp) }

/-- `[A-Z0-9]` under `re.IGNORECASE` also matches lowercase letters. -/
def isUpperAlnumCI (c : Char) : Bool :=
  isDigitChar c ∨ ('A' ≤ c ∧ c ≤ 'Z') ∨ ('a' ≤ c ∧ c ≤ 'z')

/-- `openbank_confirmation` (line 49):
`CÃ³digo de confirmaciÃ³n [A-Z0-9]+ para consultar` — a structural
match only; its classification is `non_expense`. -/
def openbankConfirmationAt (l : List Char) : Option NotifExtract := do
  let r1 ← stripLitCI "CÃ³digo de confirmaciÃ³n ".data l
  let code := r1.takeWhile isUpperAlnumCI
  if code.isEmpty then none
  else do
    let _ ← stripLitCI " para consultar".data (r1.dropWhile isUpperAlnumCI)
    some { amount := "", merchant := "" }

/-- One entry of the `PATTERNS` table. -/
structure NotifPattern where
  name : String
  ptype : String
  matcher : String → Option NotifExtract

/-- `PATTERNS` (lines 12–53), in dict insertion order — the order the
parser tries them in. -/
def notifPatterns : List NotifPattern :=
  [⟨"revolut_payment", "expense", fun t => searchPos revolutPaymentAt t.data⟩,
   ⟨"openbank_payment", "expense", fun t => searchPos openbankPaymentAt t.data⟩,
   ⟨"openbank_bizum_received", "income", fun t => searchPos bizumReceivedAt t.data⟩,
   ⟨"openbank_bizum_sent", "expense", fun t => searchPos bizumSentAt t.data⟩,
   ⟨"openbank_confirmation", "non_expense",
     fun t => searchPos openbankConfirmationAt t.data⟩]

/-- `models/notification.py : RawNotification` (the attributes the
parser reads; the timestamp is modelled by its date, which is all the
result uses). -/
structure NotifRow where
  text : Option String
  app_package : Option String
  notification_timestamp : Option PDate
deriving DecidableEq, Repr

/-- `_get_bank_account_name` (lines 136–149). -/
def getBankAccountName (appPackage : Option String) : String :=
  match appPackage with
  | none => "Unknown"
  | some s =>
      if s = "" then "Unknown"
      else if s = "com.revolut.revolut" then "Revolut"
      else if s = "es.openbank.mobile" then "Openbank"
      else if s = "com.barclays.app" then "Barclays"
      else if s = "com.santander.app" then "Santander"
      else s

/-- The fields of the dict `parse_notification` returns (geolocation and
the notification id, which no embedded consumer reads, are omitted). -/
structure NotifResult where
  merchant_name : String
  amount : F64
  currency : String
  transaction_date : PDate
  raw_description : String
  source : String
  bank_account_name : String
  pattern_matched : String
deriving DecidableEq, Repr

/-- The `for pattern_name, pattern_config in PATTERNS` loop (lines
85–131).  `Decimal(extracted["amount"])` at line 99 can raise
`decimal.InvalidOperation`, which is *not* among the caught exception
classes `(ValueError, AttributeError, KeyError)` — it propagates.  The
caught classes cannot in fact arise (every expense/income extractor
populates both keys), so the `continue` branch is dead and not
modelled. -/
def notifLoop (n : NotifRow) (now : PDate) (t : String) :
    List NotifPattern → Except PyErr (Option NotifResult)
  | [] => .ok none
  | p :: rest =>
      match p.matcher t with
      | none => notifLoop n now t rest
      | some ex =>
          if p.ptype = "non_expense" then .ok none
          else
            match pyDecimal ex.amount with
            | none => .error .invalidOperation
            | some d =>
                let amount : Dec :=
                  if p.ptype = "expense" then (Dec.abs d).neg else Dec.abs d
                .ok (some
                  { merchant_name := ex.merchant,
                    amount := amount.toFloat,
                    currency := "EUR",
                    transaction_date := n.notification_timestamp.getD now,
                    raw_description := t,
                    source := "notification",
                    bank_account_name := getBankAccountName n.app_package,
                    pattern_matched := p.name })

/-- `NotificationParser.parse_notification` (lines 66–134).  `now` is
the `datetime.now()` fallback passed in explicitly.  `.ok none` is the
"not an expense" outcome. -/
def parseNotification (now : PDate) (n : NotifRow) :
    Except PyErr (Option NotifResult) :=
  match n.text with
  | none => .ok none
  | some t =>
      if t = "" then .ok none
      else
        let tl := pyLowerStr t
        if nonExpenseKeywords.any (fun k => strContains tl (pyLowerStr k)) then
          .ok none
        else notifLoop n now t notifPatterns


/-! # Sanity checks

Spot checks of the infrastructure against externally known values:
the RFC 1321 MD5 test vectors, and binary64 values (`float(0.1)`,
`float(0.1) + float(0.2)`, `float(0.3)`). -/

set_option maxRecDepth 4000000

theorem md5_vector_empty :
    md5Hex (strBytes "") = "d41d8cd98f00b204e9800998ecf8427e" := by decide

theorem md5_vector_abc :
    md5Hex (strBytes "abc") = "900150983cd24fb0d6963f7d28e17f72" := by decide

theorem float_tenth :
    Dec.toFloat ⟨1, 1⟩ = ⟨7205759403792794, -56⟩ := by decide

theorem float_tenth_plus_two_tenths :
    f64Add (Dec.toFloat ⟨1, 1⟩) (Dec.toFloat ⟨2, 1⟩) = ⟨5404319552844596, -54⟩ ∧
    Dec.toFloat ⟨3, 1⟩ = ⟨5404319552844595, -54⟩ := by decide

/-! # Claims -/

/-! ## C5 — locale-aware decimal parsing -/

/-- The disambiguation rule in the spec's words (§4.1): if both `,` and
`.` are present, strip `.` as a thousands separator and make `,` the
decimal point; if only `,` is present treat it as the decimal point;
otherwise parse as-is.  Stated separately from `openBankAmountStr` so
that following it can be proved as a refinement. -/
def specDisambiguationRule (s : String) : String :=
  if s.data.contains ',' ∧ s.data.contains '.' then
    pyReplace (pyReplace s "." "") "," "."
  else if s.data.contains ',' then pyReplace s "," "."
  else s

/-- C5, as stated, is false: the rule "if both ',' and '.' are present
strip '.', if only ',' treat as decimal point, otherwise parse as-is"
is not followed by *every* parser.  `BankinterParser.parse` (line 161)
unconditionally strips `.`, so the point-decimal string `"1234.56"` —
which the claim says parses to its intended value 1234.56 — parses to
the numerically different 123456. -/
theorem c5_counterexample :
    bankinterCellDecimal (Cell.str "1234.56") = some ⟨123456, 0⟩ ∧
    amtEqv (Amt.dec ⟨123456, 0⟩) (Amt.dec ⟨123456, 2⟩) = false := by decide

/-- C5 (amended): the *OpenBank* parser follows the disambiguation rule
(for every string its amount normalisation equals the spec's rule, and
the three example strings parse to their intended values), while the
Bankinter parsers instead treat `.` unconditionally as a thousands
separator and `,` as the decimal point — which agrees on the
comma-decimal strings `"1.234,56"` and `"123,45"` but parses
`"1234.56"` as 123456. -/
theorem c5_amended :
    (∀ s : String, openBankAmountStr s = specDisambiguationRule s) ∧
    openBankCellDecimal (Cell.str "1.234,56") = some ⟨123456, 2⟩ ∧
    openBankCellDecimal (Cell.str "1234.56") = some ⟨123456, 2⟩ ∧
    openBankCellDecimal (Cell.str "123,45") = some ⟨12345, 2⟩ ∧
    bankinterCellDecimal (Cell.str "1.234,56") = some ⟨123456, 2⟩ ∧
    bankinterCellDecimal (Cell.str "123,45") = some ⟨12345, 2⟩ ∧
    bankinterAmountStr "1234.56" ≠ specDisambiguationRule "1234.56" := by
  refine ⟨fun s => rfl, ?_, ?_, ?_, ?_, ?_, ?_⟩ <;> decide

/-! ## C6 — one malformed row must not abort the file -/

/-- A well-formed Revolut CSV row. -/
def revGood : RevRow :=
  { state := .str "COMPLETED",
    completedDate := some (.str "2024-01-02 10:15:33"),
    startedDate := some (.str "2024-01-02 09:00:00"),
    amount := .str "-5.99", currency := some (.str "EUR"),
    description := some (.str "Coffee"), typ := some (.str "CARD_PAYMENT") }

/-- A completed Revolut row whose date cannot be parsed. -/
def revBadDate : RevRow :=
  { revGood with completedDate := some (.str "not-a-date") }

/-- A completed Revolut row whose amount cannot be parsed. -/
def revBadAmount : RevRow :=
  { revGood with amount := .str "abc", description := some (.str "Broken") }

/-- A Bankinter sheet (read with `header=None`) with a title row, the
header row, and three data rows of which the middle one has an
unparseable amount. -/
def bkRows : List (List Cell) :=
  [[Cell.str "MOVIMIENTOS DE LA CUENTA"],
   [Cell.str "Fecha contable", Cell.str "Descripción", Cell.str "Importe",
    Cell.str "Divisa"],
   [Cell.date ⟨2024, 1, 2⟩, Cell.str "COMPRA A", Cell.str "-15,99",
    Cell.str "EUR"],
   [Cell.date ⟨2024, 1, 2⟩, Cell.str "ROTA", Cell.str "garbage",
    Cell.str "EUR"],
   [Cell.date ⟨2024, 1, 3⟩, Cell.str "COMPRA B", Cell.str "-9,99",
    Cell.str "EUR"]]

/-- C6 is the stated intent, but `RevolutParser.parse` violates it: its
amount conversion (bank_parsers.py line 83) is not guarded by a
`try`/`except`, so one row with amount `"abc"` raises
`decimal.InvalidOperation` and aborts the whole file — even though the
same parser skips a malformed *date*, and `BankinterParser.parse` skips
a malformed amount and keeps going, exactly as the claim demands. -/
theorem c6_code_bug :
    (revolutParse [revGood, revBadDate]).map
        (fun l => l.map fun t => (t.transaction_date, t.amount, t.raw_merchant_name)) =
      .ok [(⟨2024, 1, 2⟩, ⟨-599, 2⟩, "Coffee")] ∧
    revolutParse [revGood, revBadAmount, revGood] = .error .invalidOperation ∧
    (bankinterParse bkRows).map
        (fun l => l.map fun t => (t.transaction_date, t.amount, t.raw_description)) =
      .ok [(⟨2024, 1, 2⟩, ⟨-1599, 2⟩, "COMPRA A"),
           (⟨2024, 1, 3⟩, ⟨-999, 2⟩, "COMPRA B")] := by
  refine ⟨?_, ?_, ?_⟩ <;> decide

/-! ## C4 — merge arithmetic -/

/-- An empty session (all autoincrement counters at 1). -/
def dbEmpty : DB :=
  { accounts := [], raws := [], expenses := [], merchants := [], tags := [],
    expense_tags := [], rules := [], categories := [],
    nextAccountId := 1, nextRawId := 1, nextExpenseId := 1,
    nextMerchantId := 1, nextTagId := 1 }

/-- Pending record: −15.99 EUR on 2024-01-01. -/
def rawMergeA : RawRow :=
  { id := 1, bank_account_id := 1, external_id := "e1",
    transaction_date := ⟨2024, 1, 1⟩, amount := ⟨-1599, 2⟩,
    currency := "EUR", raw_merchant_name := some "Shop A",
    raw_description := some "A", source := "xlsx_import",
    source_file := none }

/-- Pending record: −9.99 EUR on 2024-01-03. -/
def rawMergeB : RawRow :=
  { rawMergeA with
    id := 2, external_id := "e2",
    transaction_date := ⟨2024, 1, 3⟩, amount := ⟨-999, 2⟩,
    raw_merchant_name := some "Shop B", raw_description := some "B" }

def dbMerge : DB := { dbEmpty with raws := [rawMergeA, rawMergeB], nextExpenseId := 10 }

def edMerge : SaveData :=
  { merchant_name := "Shops", category_id := none, description := some "order",
    tags := some [], type := none }

/-- Projection of an `Expense` row to the fields the merge claim talks
about (a flat structure, so that results evaluate with `decide`). -/
structure ExpenseView where
  id : ℕ
  raw_expense_id : Option ℕ
  transaction_date : PDate
  amount : Amt
  currency : String
  bank_account_id : ℕ
  archived : Bool
deriving DecidableEq, Repr

def expenseView (e : ExpenseRow) : ExpenseView :=
  ⟨e.id, e.raw_expense_id, e.transaction_date, e.amount, e.currency,
   e.bank_account_id, e.archived⟩

/-- C4: the merge's date, currency, account and archive handling are as
claimed, but the merged amount is *not* the exact decimal sum.
`merge_expenses` computes `sum(float(raw.amount) ...)` (queue.py line
566) in binary floating point: merging −15.99 and −9.99 stores the
double −7312719894942843·2⁻⁴⁸ ≈ −25.980000000000000426, a value not
equal to the exact decimal −25.98 required by the spec's
exact-decimal invariant (the archived children do keep their exact
decimal amounts). -/
theorem c4_code_bug :
    (mergeExpenses [1, 2] edMerge dbMerge).map
        (fun p => (p.1.expenses.map expenseView, p.2)) =
      .ok ([⟨10, none, ⟨2024, 1, 1⟩, Amt.flt ⟨-7312719894942843, -48⟩, "EUR", 1, false⟩,
            ⟨11, some 1, ⟨2024, 1, 1⟩, Amt.dec ⟨-1599, 2⟩, "EUR", 1, true⟩,
            ⟨12, some 2, ⟨2024, 1, 3⟩, Amt.dec ⟨-999, 2⟩, "EUR", 1, true⟩], 10) ∧
    (⟨-1599, 2⟩ : Dec).units + (⟨-999, 2⟩ : Dec).units = -2598 ∧
    amtEqv (Amt.flt ⟨-7312719894942843, -48⟩) (Amt.dec ⟨-2598, 2⟩) = false := by
  refine ⟨?_, ?_, ?_⟩ <;> decide

/-! ## C9 — notification sign forcing -/

/-- The classification of a pattern name in the `PATTERNS` table. -/
def patternType (name : String) : Option String :=
  (notifPatterns.find? (fun p => p.name = name)).map (fun p => p.ptype)

lemma flPosParts_sig_nonneg (a b : ℕ) : 0 ≤ (flPosParts a b).sig := by
  unfold flPosParts
  dsimp only
  split <;> split <;> dsimp only <;>
    first
      | exact mul_nonneg (Int.natCast_nonneg _) (pow_nonneg (by norm_num) _)
      | exact Int.natCast_nonneg _

lemma flOfParts_sig_nonneg (n : ℤ) (d : ℕ) (h : 0 ≤ n) :
    0 ≤ (flOfParts n d).sig := by
  unfold flOfParts
  split
  · exact le_refl 0
  · split
    · omega
    · exact flPosParts_sig_nonneg _ _

lemma flOfParts_sig_nonpos (n : ℤ) (d : ℕ) (h : n ≤ 0) :
    (flOfParts n d).sig ≤ 0 := by
  unfold flOfParts
  split
  · exact le_refl 0
  · split
    · simpa using flPosParts_sig_nonneg n.natAbs d
    · omega

lemma toFloat_neg_abs_sig (d : Dec) : ((Dec.abs d).neg).toFloat.sig ≤ 0 := by
  apply flOfParts_sig_nonpos
  simp [Dec.abs, Dec.neg]

lemma toFloat_abs_sig (d : Dec) : 0 ≤ (Dec.abs d).toFloat.sig := by
  apply flOfParts_sig_nonneg
  simp [Dec.abs]

/-- Any result the pattern loop produces carries the name of a listed
pattern, and its amount's sign follows that pattern's classification. -/
lemma notifLoop_result (n : NotifRow) (now : PDate) (t : String)
    (r : NotifResult) :
    ∀ ps, notifLoop n now t ps = .ok (some r) →
      ∃ p, p ∈ ps ∧ r.pattern_matched = p.name ∧
        (p.ptype = "expense" → r.amount.sig ≤ 0) ∧
        (p.ptype ≠ "expense" → 0 ≤ r.amount.sig)
  | [], h => by simp [notifLoop] at h
  | p :: rest, h => by
      rw [notifLoop] at h
      rcases hm : p.matcher t with _ | ex
      · simp only [hm] at h
        obtain ⟨q, hq, hrest⟩ := notifLoop_result n now t r rest h
        exact ⟨q, List.mem_cons_of_mem _ hq, hrest⟩
      · simp only [hm] at h
        by_cases hty : p.ptype = "non_expense"
        · rw [if_pos hty] at h
          simp at h
        · rw [if_neg hty] at h
          rcases hd : pyDecimal ex.amount with _ | d
          · simp only [hd] at h
            exact Except.noConfusion h
          · simp only [hd] at h
            refine ⟨p, List.mem_cons_self _ _, ?_⟩
            by_cases hexp : p.ptype = "expense"
            · rw [if_pos hexp] at h
              obtain rfl : _ = r := Option.some.inj (Except.ok.inj h)
              exact ⟨rfl, fun _ => toFloat_neg_abs_sig d, fun hc => absurd hexp hc⟩
            · rw [if_neg hexp] at h
              obtain rfl : _ = r := Option.some.inj (Except.ok.inj h)
              exact ⟨rfl, fun hc => absurd hc hexp, fun _ => toFloat_abs_sig d⟩

/-- A name found in the table maps to that entry's classification. -/
lemma patternType_of_mem (p : NotifPattern) (hp : p ∈ notifPatterns) :
    patternType p.name = some p.ptype := by
  rcases hp with _ | ⟨_, hp⟩
  · decide
  rcases hp with _ | ⟨_, hp⟩
  · decide
  rcases hp with _ | ⟨_, hp⟩
  · decide
  rcases hp with _ | ⟨_, hp⟩
  · decide
  rcases hp with _ | ⟨_, hp⟩
  · decide
  cases hp

/-- If no pattern matches, the loop reports "not an expense". -/
lemma notifLoop_none (n : NotifRow) (now : PDate) (t : String) :
    ∀ ps, (∀ p ∈ ps, p.matcher t = none) → notifLoop n now t ps = .ok none
  | [], _ => rfl
  | p :: rest, h => by
      rw [notifLoop, h p (List.mem_cons_self _ _)]
      exact notifLoop_none n now t rest (fun q hq => h q (List.mem_cons_of_mem _ hq))

/-- A notification with a zero-amount expense text: the `revolut_payment`
pattern (classification `expense`) matches, and the resulting amount is
the float 0 — not a negative number. -/
def notifZero : NotifRow :=
  ⟨some "Has pagado 0 â‚¬ en Cafe", some "com.revolut.revolut",
   some ⟨2024, 3, 1⟩⟩

def f64IsNeg (f : F64) : Bool := f.sig < 0

/-- C9, as stated, is false: "Has pagado 0 â‚¬ en Cafe" matches the
expense pattern `revolut_payment`, yet the resulting amount is `-abs(0)`
= the float 0, which is not negative. -/
theorem c9_counterexample :
    parseNotification ⟨2024, 3, 2⟩ notifZero =
      .ok (some
        { merchant_name := "Cafe", amount := ⟨0, 0⟩, currency := "EUR",
          transaction_date := ⟨2024, 3, 1⟩,
          raw_description := "Has pagado 0 â‚¬ en Cafe",
          source := "notification", bank_account_name := "Revolut",
          pattern_matched := "revolut_payment" }) ∧
    patternType "revolut_payment" = some "expense" ∧
    f64IsNeg ⟨0, 0⟩ = false := by
  refine ⟨?_, ?_, ?_⟩ <;> decide

/-- C9 (amended): a parsed notification's amount is *nonpositive* when
the matched pattern is an expense (strictly negative only when the
extracted amount is nonzero) and nonnegative when it is an income,
regardless of the source text's sign; a notification matching the
deny-list, or matching no pattern at all, yields "not an expense"
(`.ok none`) without raising. -/
theorem c9_amended :
    (∀ (now : PDate) (n : NotifRow) (r : NotifResult),
      parseNotification now n = .ok (some r) →
        (patternType r.pattern_matched = some "expense" → r.amount.sig ≤ 0) ∧
        (patternType r.pattern_matched = some "income" → 0 ≤ r.amount.sig)) ∧
    (∀ (now : PDate) (n : NotifRow) (t k : String), n.text = some t →
      k ∈ nonExpenseKeywords → strContains (pyLowerStr t) (pyLowerStr k) = true →
      parseNotification now n = .ok none) ∧
    (∀ (now : PDate) (n : NotifRow) (t : String), n.text = some t →
      (∀ p ∈ notifPatterns, p.matcher t = none) →
      parseNotification now n = .ok none) := by
  refine ⟨?_, ?_, ?_⟩
  · intro now n r h
    rw [parseNotification] at h
    rcases ht : n.text with _ | t
    · simp only [ht] at h
      exact absurd (Except.ok.inj h) (by simp)
    simp only [ht] at h
    by_cases h0 : t = ""
    · rw [if_pos h0] at h
      exact absurd (Except.ok.inj h) (by simp)
    rw [if_neg h0] at h
    by_cases hk : nonExpenseKeywords.any (fun k => strContains (pyLowerStr t) (pyLowerStr k))
    · rw [if_pos hk] at h
      exact absurd (Except.ok.inj h) (by simp)
    rw [if_neg hk] at h
    obtain ⟨p, hp, hname, hexp, hnexp⟩ := notifLoop_result n now t r _ h
    have hpt := patternType_of_mem p hp
    constructor
    · intro he
      rw [hname, hpt] at he
      exact hexp (Option.some.inj he)
    · intro hi
      rw [hname, hpt] at hi
      have : p.ptype ≠ "expense" := by
        intro hc
        rw [hc] at hi
        exact absurd (Option.some.inj hi) (by decide)
      exact hnexp this
  · intro now n t k ht hk hc
    rw [parseNotification]
    simp only [ht]
    by_cases h0 : t = ""
    · rw [if_pos h0]
    · rw [if_neg h0, if_pos (List.any_eq_true.mpr ⟨k, hk, hc⟩)]
  · intro now n t ht hnone
    rw [parseNotification]
    simp only [ht]
    by_cases h0 : t = ""
    · rw [if_pos h0]
    · rw [if_neg h0]
      split
      · rfl
      · exact notifLoop_none n now t notifPatterns hnone

/-- Witness for C9 (amended), at the deny-list keyword
`"saldo disponible"`. -/
theorem c9_amended_witness :
    parseNotification ⟨2024, 1, 1⟩
      ⟨some "Tu saldo disponible es 100 EUR", none, none⟩ = .ok none :=
  c9_amended.2.1 ⟨2024, 1, 1⟩ _ "Tu saldo disponible es 100 EUR"
    "saldo disponible" rfl (by decide) (by decide)

/-! ## C10 — rule matching never raises -/

/-- C10: `_matches_rule` is a total Boolean function, and every
degenerate case evaluates to "no match": an over-long regex pattern
(length > 500), a pattern the regex engine rejects (`re.error`), a field
that is absent or `None`-valued on the record, and an unknown match
type. -/
theorem c10_matches_rule_total (engine : RegexEngine) (raw : RawRow)
    (rule : RuleRow) :
    (rule.match_type = "regex" → 500 < rule.match_value.length →
      matchesRule engine raw rule = false) ∧
    (rule.match_type = "regex" →
      (∀ v, engine rule.match_value v = .error ()) →
      matchesRule engine raw rule = false) ∧
    (rawGetAttr raw rule.field = none → matchesRule engine raw rule = false) ∧
    (rule.match_type ≠ "exact" → rule.match_type ≠ "regex" →
      matchesRule engine raw rule = false) := by
  refine ⟨?_, ?_, ?_, ?_⟩
  · intro hre hlen
    rcases hattr : rawGetAttr raw rule.field with _ | v
    · simp [matchesRule, hattr]
    · simp [matchesRule, hattr, hre, hlen]
  · intro hre heng
    rcases hattr : rawGetAttr raw rule.field with _ | v
    · simp [matchesRule, hattr]
    · simp only [matchesRule, hattr, hre]
      simp only [show ("regex" : String) ≠ "exact" from by decide, if_false,
        if_neg, reduceIte]
      split
      · rfl
      · simp [heng v]
  · intro hattr
    simp [matchesRule, hattr]
  · intro hex hre
    rcases hattr : rawGetAttr raw rule.field with _ | v
    · simp [matchesRule, hattr]
    · simp [matchesRule, hattr, hex, hre]

/-- A 501-character regex pattern. -/
def longPattern : String := String.mk (List.replicate 501 'a')

def ruleLongRegex : RuleRow :=
  { id := 1, active := true, field := "source", match_type := "regex",
    match_value := longPattern, action := "discard",
    save_data := ⟨"", none, none, none, none⟩ }

/-- Witness for C10: the length-cap case at a concrete record and a
501-character pattern. -/
theorem c10_witness :
    matchesRule (fun _ _ => .error ()) rawMergeA ruleLongRegex = false :=
  (c10_matches_rule_total (fun _ _ => .error ()) rawMergeA ruleLongRegex).1
    rfl (by decide)

/-! ## C8 — duplicate finder -/

/-- Pending record at (2024-02-01, −20.00). -/
def rawPend : RawRow :=
  { id := 1, bank_account_id := 1, external_id := "p1",
    transaction_date := ⟨2024, 2, 1⟩, amount := ⟨-2000, 2⟩,
    currency := "EUR", raw_merchant_name := some "A",
    raw_description := some "a", source := "xlsx_import",
    source_file := none }

/-- A second raw record at the same (date, amount) that has already been
processed (an archived expense links to it), so it is *not* pending. -/
def rawDone : RawRow :=
  { rawPend with id := 2, external_id := "p2" }

/-- The archived finalized record produced from `rawDone`. -/
def expArch : ExpenseRow :=
  { id := 5, raw_expense_id := some 2, bank_account_id := 1,
    transaction_date := ⟨2024, 2, 1⟩, amount := .dec ⟨-2000, 2⟩,
    currency := "EUR", merchant_alias_id := none, category_id := none,
    description := none, type := none, archived := true }

def dbDup : DB := { dbEmpty with raws := [rawPend, rawDone], expenses := [expArch] }

/-- C8, as stated, is false: the raw-sibling query of `find_duplicates`
(queue.py lines 438–442) scans the whole `RawExpense` table with no
pending-only filter, so the report for the pending record 1 references
raw record 2 — which is not pending (it is already processed) — in
addition to the finalized record.  The claim's "exactly the other
pending records and the finalized records" predicts the single entry
`[saved 5]` here; the code returns two entries. -/
theorem c8_counterexample :
    findDuplicates dbDup = [(1, [DupRef.raw 2, DupRef.saved 5 true])] ∧
    (queueRaws dbDup).map (fun r => r.id) = [1] ∧
    findDuplicates dbDup ≠ [(1, [DupRef.saved 5 true])] := by
  refine ⟨?_, ?_, ?_⟩ <;> decide

/-- The per-record duplicate entry: *all* other raw records (pending or
already finalized) plus all finalized records (archived included)
sharing the exact (date, amount); `none` when both sets are empty. -/
def dupEntry (db : DB) (r : RawRow) : Option (ℕ × List DupRef) :=
  let o := otherRawDups db r
  let s := savedDups db r
  if o.isEmpty ∧ s.isEmpty then none
  else some (r.id, o.map (fun d => DupRef.raw d.id) ++
                   s.map (fun e => DupRef.saved e.id e.archived))

lemma findDupGo_eq_filterMap (db : DB) :
    ∀ rs : List RawRow, findDupGo db rs = rs.filterMap (dupEntry db)
  | [] => rfl
  | r :: rest => by
      rw [findDupGo, List.filterMap_cons, dupEntry]
      split
      · exact findDupGo_eq_filterMap db rest
      · rw [findDupGo_eq_filterMap db rest]

/-- The session with one pending record and one archived finalized
record at the same (date, amount), and no leftover raw row for the
archived one. -/
def dbDupArch : DB := { dbEmpty with raws := [rawPend], expenses := [expArch] }

/-- C8 (amended): for every pending record the duplicate finder reports
all *raw* records other than itself — whether still pending or already
finalized — plus the finalized records (archived included) sharing its
exact (date, amount); a pending record appears iff that union is
nonempty (`findDuplicates` is exactly the queue filtered through
`dupEntry`, and it never mutates the session — it only builds a
report).  Over a set with one pending record and one archived finalized
record at the same (date, amount), it returns exactly one candidate
referencing the archived sibling. -/
theorem c8_amended :
    (∀ db : DB, findDuplicates db = (queueRaws db).filterMap (dupEntry db)) ∧
    findDuplicates dbDupArch = [(1, [DupRef.saved 5 true])] := by
  constructor
  · intro db
    exact findDupGo_eq_filterMap db (queueRaws db)
  · decide

/-! ## C3 — failed imports commit nothing but the failed status -/

/-- A freshly submitted `ImportHistory` row. -/
def importRecFresh : ImportRec :=
  { status := "pending", bank_account_id := none, records_imported := none,
    records_skipped := none, error_message := none,
    stored_filename := some "f.xlsx" }

/-- C3: whenever the run raises (the raise sites of the embedded
fragment are the parse stage: unknown format, header never found), the
job ends `failed` carrying the error message, its imported/skipped
counts stay unset, the exception is re-raised, and the committed
session is unchanged — no record parsed from the file is visible to
other readers. -/
theorem c3_failure_atomic (e : String) (rec : ImportRec) (db : DB)
    (h1 : rec.records_imported = none) (h2 : rec.records_skipped = none) :
    (processImport (.error e) rec db).record.status = "failed" ∧
    (processImport (.error e) rec db).record.error_message = some e ∧
    (processImport (.error e) rec db).record.records_imported = none ∧
    (processImport (.error e) rec db).record.records_skipped = none ∧
    (processImport (.error e) rec db).db = db ∧
    (processImport (.error e) rec db).outcome = .error e := by
  refine ⟨rfl, rfl, h1, h2, rfl, rfl⟩

/-- Witness for C3 at the "unknown format" error on an empty store. -/
theorem c3_witness :
    (processImport (.error "Unknown bank file format: f.xlsx")
        importRecFresh dbEmpty).record.status = "failed" ∧
    (processImport (.error "Unknown bank file format: f.xlsx")
        importRecFresh dbEmpty).db = dbEmpty :=
  let h := c3_failure_atomic "Unknown bank file format: f.xlsx"
    importRecFresh dbEmpty rfl rfl
  ⟨h.1, h.2.2.2.2.1⟩

/-! ## C2 — duplicates within one file -/

/-- A transaction as a parser emits it: the fingerprint is
`generate_external_id` over (date, amount, description). -/
def mkTx (d : PDate) (a : Dec) (desc : String) : Tx :=
  { transaction_date := d, amount := a, currency := "EUR",
    raw_merchant_name := desc, raw_description := desc,
    external_id := generateExternalId d a desc }

/-- C2, as stated, is false: the fingerprint hashes (date, amount,
*description*), so three rows agreeing only on (date, amount) but with
descriptions "a", "b", "c" get three distinct fingerprints and all
three are imported — 3 imported, 0 skipped, not 1 and 2. -/
theorem c2_counterexample :
    (processImport
        (.ok ("Bankinter",
          [mkTx ⟨2024, 1, 5⟩ ⟨-1000, 2⟩ "a",
           mkTx ⟨2024, 1, 5⟩ ⟨-1000, 2⟩ "b",
           mkTx ⟨2024, 1, 5⟩ ⟨-1000, 2⟩ "c"]))
        importRecFresh dbEmpty).outcome = .ok (3, 0, "Bankinter") ∧
    (processImport
        (.ok ("Bankinter",
          [mkTx ⟨2024, 1, 5⟩ ⟨-1000, 2⟩ "a",
           mkTx ⟨2024, 1, 5⟩ ⟨-1000, 2⟩ "b",
           mkTx ⟨2024, 1, 5⟩ ⟨-1000, 2⟩ "c"]))
        importRecFresh dbEmpty).outcome ≠ .ok (1, 2, "Bankinter") := by
  constructor <;> decide

/-- C2 (amended): three raw transactions with identical (date, amount,
description) — hence identical fingerprints, which is what "three
identical rows" produce — yield exactly 1 imported and 2 skipped
against a store with no raw expenses. -/
theorem c2_amended (bank : String) (d : PDate) (a : Dec) (desc : String)
    (rec : ImportRec) (db : DB) (h : db.raws = []) :
    (processImport (.ok (bank, [mkTx d a desc, mkTx d a desc, mkTx d a desc]))
        rec db).outcome = .ok (1, 2, bank) := by
  rcases hacc : getOrCreateBankAccount bank db with ⟨acc, db1⟩
  have hdb1 : db1.raws = [] := by
    rw [getOrCreateBankAccount] at hacc
    rcases hf : db.accounts.find? (fun x => x.bank_name = bank) with _ | x <;>
      simp only [hf] at hacc <;> rcases hacc with ⟨rfl, rfl⟩ <;> simpa using h
  rw [processImport]
  simp only [hacc, List.foldl_cons, List.foldl_nil]
  simp [importTxStep, hdb1]

/-- Witness for C2 (amended) at a concrete date, amount and
description. -/
theorem c2_amended_witness :
    (processImport
        (.ok ("Bankinter",
          [mkTx ⟨2024, 1, 5⟩ ⟨-1000, 2⟩ "x",
           mkTx ⟨2024, 1, 5⟩ ⟨-1000, 2⟩ "x",
           mkTx ⟨2024, 1, 5⟩ ⟨-1000, 2⟩ "x"]))
        importRecFresh dbEmpty).outcome = .ok (1, 2, "Bankinter") :=
  c2_amended "Bankinter" ⟨2024, 1, 5⟩ ⟨-1000, 2⟩ "x" importRecFresh dbEmpty rfl

/-! ## C1 — import idempotence -/

lemma importTxStep_accounts (accId : ℕ) (sf : Option String)
    (s : ImportLoopState) (tx : Tx) :
    (importTxStep accId sf s tx).db.accounts = s.db.accounts := by
  rw [importTxStep]
  split
  · rfl
  split
  · rfl
  · rfl

lemma foldl_importTxStep_accounts (accId : ℕ) (sf : Option String) :
    ∀ (txs : List Tx) (s : ImportLoopState),
      ((txs.foldl (importTxStep accId sf) s).db.accounts = s.db.accounts)
  | [], _ => rfl
  | tx :: rest, s => by
      rw [List.foldl_cons, foldl_importTxStep_accounts accId sf rest,
        importTxStep_accounts]

/-- First run against a store holding none of the file's fingerprints:
every transaction with a fresh, pairwise-distinct fingerprint is
imported, none skipped, existing rows are kept, and afterwards the store
holds a row for every transaction's `(account, fingerprint)`. -/
lemma importLoop_fresh (accId : ℕ) (sf : Option String) :
    ∀ (txs : List Tx) (s : ImportLoopState),
      (txs.map (fun t => t.external_id)).Nodup →
      (∀ t ∈ txs, t.external_id ∉ s.seen) →
      (∀ t ∈ txs, ∀ r ∈ s.db.raws,
        ¬(r.bank_account_id = accId ∧ r.external_id = t.external_id)) →
      (txs.foldl (importTxStep accId sf) s).imported = s.imported + txs.length ∧
      (txs.foldl (importTxStep accId sf) s).skipped = s.skipped ∧
      (∀ r ∈ s.db.raws, r ∈ (txs.foldl (importTxStep accId sf) s).db.raws) ∧
      (∀ t ∈ txs, ∃ r ∈ (txs.foldl (importTxStep accId sf) s).db.raws,
        r.bank_account_id = accId ∧ r.external_id = t.external_id)
  | [], s => by
      intro _ _ _
      refine ⟨by simp, rfl, fun r hr => hr, by simp⟩
  | tx :: rest, s => by
      intro hnd hseen hfresh
      rw [List.map_cons, List.nodup_cons] at hnd
      have hs1 : importTxStep accId sf s tx =
          { imported := s.imported + 1, skipped := s.skipped,
            seen := tx.external_id :: s.seen,
            db := { s.db with
              raws := s.db.raws ++
                [{ id := s.db.nextRawId, bank_account_id := accId,
                   external_id := tx.external_id,
                   transaction_date := tx.transaction_date,
                   amount := tx.amount, currency := tx.currency,
                   raw_merchant_name := some tx.raw_merchant_name,
                   raw_description := some tx.raw_description,
                   source := "xlsx_import", source_file := sf }],
              nextRawId := s.db.nextRawId + 1 } } := by
        rw [importTxStep,
          if_neg (hseen tx (List.mem_cons_self _ _)),
          if_neg ?_]
        simp only [List.any_eq_true, decide_eq_true_eq, not_exists]
        intro r hr
        exact hfresh tx (List.mem_cons_self _ _) r hr.1 hr.2
      rw [List.foldl_cons, hs1]
      have ih := importLoop_fresh accId sf rest
        { imported := s.imported + 1, skipped := s.skipped,
          seen := tx.external_id :: s.seen,
          db := { s.db with
            raws := s.db.raws ++
              [{ id := s.db.nextRawId, bank_account_id := accId,
                 external_id := tx.external_id,
                 transaction_date := tx.transaction_date,
                 amount := tx.amount, currency := tx.currency,
                 raw_merchant_name := some tx.raw_merchant_name,
                 raw_description := some tx.raw_description,
                 source := "xlsx_import", source_file := sf }],
            nextRawId := s.db.nextRawId + 1 } }
        hnd.2
        (by
          intro t ht
          simp only [List.mem_cons]
          push_neg
          refine ⟨?_, hseen t (List.mem_cons_of_mem _ ht)⟩
          intro hc
          exact hnd.1 (hc ▸ List.mem_map_of_mem (fun u => u.external_id) ht))
        (by
          intro t ht r hr
          rcases List.mem_append.mp hr with hl | hr1
          · exact hfresh t (List.mem_cons_of_mem _ ht) r hl
          · rcases List.mem_singleton.mp hr1 with rfl
            rintro ⟨-, heid⟩
            have heid2 : tx.external_id = t.external_id := heid
            refine hnd.1 ?_
            rw [heid2]
            exact List.mem_map_of_mem (fun u => u.external_id) ht)
      obtain ⟨ih1, ih2, ih3, ih4⟩ := ih
      refine ⟨by rw [ih1]; simp; omega, ih2, ?_, ?_⟩
      · intro r hr
        exact ih3 r (List.mem_append_left _ hr)
      · intro t ht
        rcases List.mem_cons.mp ht with rfl | ht'
        · refine ⟨_, ih3 _ (List.mem_append_right _ (List.mem_singleton.mpr rfl)), rfl, rfl⟩
        · exact ih4 t ht'

/-- Second run: every transaction's `(account, fingerprint)` already has
a row, so with pairwise-distinct fingerprints everything is counted
skipped and the session is untouched. -/
lemma importLoop_dupes (accId : ℕ) (sf : Option String) :
    ∀ (txs : List Tx) (s : ImportLoopState),
      (txs.map (fun t => t.external_id)).Nodup →
      (∀ t ∈ txs, t.external_id ∉ s.seen) →
      (∀ t ∈ txs, ∃ r ∈ s.db.raws,
        r.bank_account_id = accId ∧ r.external_id = t.external_id) →
      (txs.foldl (importTxStep accId sf) s).imported = s.imported ∧
      (txs.foldl (importTxStep accId sf) s).skipped = s.skipped + txs.length ∧
      (txs.foldl (importTxStep accId sf) s).db = s.db
  | [], s => by
      intro _ _ _
      exact ⟨rfl, by simp, rfl⟩
  | tx :: rest, s => by
      intro hnd hseen hdup
      rw [List.map_cons, List.nodup_cons] at hnd
      have hs1 : importTxStep accId sf s tx =
          { s with skipped := s.skipped + 1,
                   seen := tx.external_id :: s.seen } := by
        rw [importTxStep, if_neg (hseen tx (List.mem_cons_self _ _)), if_pos ?_]
        simp only [List.any_eq_true, decide_eq_true_eq]
        obtain ⟨r, hr, h1, h2⟩ := hdup tx (List.mem_cons_self _ _)
        exact ⟨r, hr, h1, h2⟩
      rw [List.foldl_cons, hs1]
      have ih := importLoop_dupes accId sf rest
        { s with skipped := s.skipped + 1, seen := tx.external_id :: s.seen }
        hnd.2
        (by
          intro t ht
          simp only [List.mem_cons]
          push_neg
          refine ⟨?_, hseen t (List.mem_cons_of_mem _ ht)⟩
          intro hc
          exact hnd.1 (hc ▸ List.mem_map_of_mem (fun u => u.external_id) ht))
        (fun t ht => hdup t (List.mem_cons_of_mem _ ht))
      obtain ⟨ih1, ih2, ih3⟩ := ih
      refine ⟨ih1, by rw [ih2]; simp; omega, ih3⟩

lemma find?_append_none {p : AccountRow → Bool} :
    ∀ (l₁ l₂ : List AccountRow), l₁.find? p = none →
      (l₁ ++ l₂).find? p = l₂.find? p
  | [], _, _ => rfl
  | a :: l₁, l₂, h => by
      rcases hp : p a with _ | _
      · simp only [List.cons_append, List.find?, hp] at h ⊢
        exact find?_append_none l₁ l₂ h
      · simp only [List.find?, hp] at h
        exact Option.noConfusion h

/-- After `get_or_create_bank_account`, looking the bank up again finds
exactly the account that was returned. -/
lemma getOrCreate_found (bank : String) (db : DB) :
    (getOrCreateBankAccount bank db).2.accounts.find?
        (fun x => x.bank_name = bank) =
      some (getOrCreateBankAccount bank db).1 := by
  rcases hf : db.accounts.find? (fun x => x.bank_name = bank) with _ | a
  · simp only [getOrCreateBankAccount, hf]
    rw [find?_append_none _ _ hf]
    simp [List.find?]
  · simp only [getOrCreateBankAccount, hf]

lemma getOrCreate_raws (bank : String) (db : DB) :
    (getOrCreateBankAccount bank db).2.raws = db.raws := by
  rcases hf : db.accounts.find? (fun x => x.bank_name = bank) with _ | a <;>
    simp only [getOrCreateBankAccount, hf]

lemma getOrCreate_of_found (bank : String) (db : DB) (a : AccountRow)
    (hf : db.accounts.find? (fun x => x.bank_name = bank) = some a) :
    getOrCreateBankAccount bank db = (a, db) := by
  simp only [getOrCreateBankAccount, hf]

/-- The returned triple of a successful run, in terms of the
transaction loop. -/
lemma processImport_ok_outcome (bank : String) (txs : List Tx)
    (rec : ImportRec) (db : DB) :
    (processImport (.ok (bank, txs)) rec db).outcome =
      .ok ((txs.foldl (importTxStep (getOrCreateBankAccount bank db).1.id
              rec.stored_filename)
            ⟨0, 0, [], (getOrCreateBankAccount bank db).2⟩).imported,
           (txs.foldl (importTxStep (getOrCreateBankAccount bank db).1.id
              rec.stored_filename)
            ⟨0, 0, [], (getOrCreateBankAccount bank db).2⟩).skipped, bank) := by
  rcases hacc : getOrCreateBankAccount bank db with ⟨acc, db1⟩
  rw [processImport]
  simp only [hacc]
  simp only [apply_ite ImportRec.stored_filename]
  simp only [ite_self]

/-- The committed session of a successful run, in terms of the
transaction loop. -/
lemma processImport_ok_db (bank : String) (txs : List Tx)
    (rec : ImportRec) (db : DB) :
    (processImport (.ok (bank, txs)) rec db).db =
      (txs.foldl (importTxStep (getOrCreateBankAccount bank db).1.id
          rec.stored_filename)
        ⟨0, 0, [], (getOrCreateBankAccount bank db).2⟩).db := by
  rcases hacc : getOrCreateBankAccount bank db with ⟨acc, db1⟩
  rw [processImport]
  simp only [hacc]
  simp only [apply_ite ImportRec.stored_filename]
  simp only [ite_self]

/-- C1: importing a file of pairwise-fingerprint-distinct transactions
into an empty store imports all `N` of them and reports `(N, 0)`; an
immediately repeated run on the resulting store reports `(0, N)` —
every row is recognised by its `(account, fingerprint)` and skipped —
and creates no new raw expense rows. -/
theorem c1_import_idempotent (bank : String) (txs : List Tx)
    (rec rec2 : ImportRec) (db : DB) (h0 : db.raws = [])
    (hnd : (txs.map (fun t => t.external_id)).Nodup) :
    (processImport (.ok (bank, txs)) rec db).outcome =
      .ok (txs.length, 0, bank) ∧
    (processImport (.ok (bank, txs)) rec2
        (processImport (.ok (bank, txs)) rec db).db).outcome =
      .ok (0, txs.length, bank) ∧
    (processImport (.ok (bank, txs)) rec2
        (processImport (.ok (bank, txs)) rec db).db).db.raws =
      (processImport (.ok (bank, txs)) rec db).db.raws := by
  rcases hacc : getOrCreateBankAccount bank db with ⟨acc, db1⟩
  have hdb1raws : db1.raws = [] := by
    have hr := getOrCreate_raws bank db
    rw [hacc] at hr
    rw [hr, h0]
  have hfound : db1.accounts.find? (fun x => x.bank_name = bank) = some acc := by
    have hf := getOrCreate_found bank db
    rw [hacc] at hf
    exact hf
  obtain ⟨f1, f2, f3, f4⟩ := importLoop_fresh acc.id rec.stored_filename txs
    ⟨0, 0, [], db1⟩ hnd (by simp) (by simp [hdb1raws])
  have haccs := foldl_importTxStep_accounts acc.id rec.stored_filename txs
    ⟨0, 0, [], db1⟩
  have hdb_run1 : (processImport (.ok (bank, txs)) rec db).db =
      (txs.foldl (importTxStep acc.id rec.stored_filename)
        ⟨0, 0, [], db1⟩).db := by
    rw [processImport_ok_db, hacc]
  have hout1 : (processImport (.ok (bank, txs)) rec db).outcome =
      .ok (txs.length, 0, bank) := by
    rw [processImport_ok_outcome, hacc]
    rw [f1, f2]
    simp
  have hfound2 : ((txs.foldl (importTxStep acc.id rec.stored_filename)
      ⟨0, 0, [], db1⟩).db).accounts.find? (fun x => x.bank_name = bank) =
      some acc := by
    rw [haccs]
    exact hfound
  have hacc2 := getOrCreate_of_found bank _ acc hfound2
  obtain ⟨g1, g2, g3⟩ := importLoop_dupes acc.id rec2.stored_filename txs
    ⟨0, 0, [], (txs.foldl (importTxStep acc.id rec.stored_filename)
      ⟨0, 0, [], db1⟩).db⟩ hnd (by simp) f4
  refine ⟨hout1, ?_, ?_⟩
  · rw [hdb_run1, processImport_ok_outcome, hacc2]
    rw [g1, g2]
    simp
  · rw [hdb_run1, processImport_ok_db, hacc2]
    rw [g3]

/-- Witness for C1 at a two-transaction file whose fingerprints are
computed by the real MD5 fingerprint generator (distinct, by
evaluation), against an empty store. -/
theorem c1_witness :
    (processImport
        (.ok ("Revolut",
          [mkTx ⟨2024, 1, 5⟩ ⟨-1000, 2⟩ "a", mkTx ⟨2024, 1, 5⟩ ⟨-1000, 2⟩ "b"]))
        importRecFresh dbEmpty).outcome = .ok (2, 0, "Revolut") ∧
    (processImport
        (.ok ("Revolut",
          [mkTx ⟨2024, 1, 5⟩ ⟨-1000, 2⟩ "a", mkTx ⟨2024, 1, 5⟩ ⟨-1000, 2⟩ "b"]))
        importRecFresh
        (processImport
          (.ok ("Revolut",
            [mkTx ⟨2024, 1, 5⟩ ⟨-1000, 2⟩ "a", mkTx ⟨2024, 1, 5⟩ ⟨-1000, 2⟩ "b"]))
          importRecFresh dbEmpty).db).outcome = .ok (0, 2, "Revolut") :=
  let h := c1_import_idempotent "Revolut"
    [mkTx ⟨2024, 1, 5⟩ ⟨-1000, 2⟩ "a", mkTx ⟨2024, 1, 5⟩ ⟨-1000, 2⟩ "b"]
    importRecFresh importRecFresh dbEmpty rfl (by decide)
  ⟨h.1, h.2.1⟩

/-! ## C7 — rule engine: first match wins, active rules only -/

lemma addTags_raws (i : ℕ) :
    ∀ (tags : List String) (db : DB), (addTags i tags db).raws = db.raws
  | [], _ => rfl
  | tn :: rest, db => by
      rw [addTags, List.foldl_cons]
      rw [show (List.foldl _ _ rest : DB) = addTags i rest _ from rfl,
        addTags_raws i rest]
      rcases hf : db.tags.find? (fun t => t.name = tn) with _ | t <;>
        simp only [hf]

lemma addTags_expenses (i : ℕ) :
    ∀ (tags : List String) (db : DB), (addTags i tags db).expenses = db.expenses
  | [], _ => rfl
  | tn :: rest, db => by
      rw [addTags, List.foldl_cons]
      rw [show (List.foldl _ _ rest : DB) = addTags i rest _ from rfl,
        addTags_expenses i rest]
      rcases hf : db.tags.find? (fun t => t.name = tn) with _ | t <;>
        simp only [hf]

lemma getOrCreateMerchant_raws (dn rn : String) (cid : Option ℕ) (db : DB) :
    (getOrCreateMerchant dn rn cid db).2.raws = db.raws := by
  rcases hf : db.merchants.find? (fun m => m.display_name = dn) with _ | m <;>
    simp only [getOrCreateMerchant, hf]

lemma getOrCreateMerchant_expenses (dn rn : String) (cid : Option ℕ) (db : DB) :
    (getOrCreateMerchant dn rn cid db).2.expenses = db.expenses := by
  rcases hf : db.merchants.find? (fun m => m.display_name = dn) with _ | m <;>
    simp only [getOrCreateMerchant, hf]

lemma ruleSaveAction_raws (raw : RawRow) (sd : SaveData) (db : DB) :
    (ruleSaveAction raw sd db).raws = db.raws := by
  rw [ruleSaveAction]
  by_cases h : sd.merchant_name = ""
  · simp only [h, if_pos]
    rw [addTags_raws]
  · simp only [h, if_neg, ite_false]
    rcases hm : getOrCreateMerchant sd.merchant_name
        (match raw.raw_merchant_name with
         | some s => if s = "" then sd.merchant_name else s
         | none => sd.merchant_name) sd.category_id db with ⟨m, db2⟩
    simp only [hm]
    rw [addTags_raws]
    have hr := getOrCreateMerchant_raws sd.merchant_name
      (match raw.raw_merchant_name with
       | some s => if s = "" then sd.merchant_name else s
       | none => sd.merchant_name) sd.category_id db
    rw [hm] at hr
    exact hr

lemma ruleSaveAction_expenses (raw : RawRow) (sd : SaveData) (db : DB) :
    ∀ e ∈ (ruleSaveAction raw sd db).expenses,
      e ∈ db.expenses ∨ e.raw_expense_id = some raw.id := by
  rw [ruleSaveAction]
  by_cases h : sd.merchant_name = ""
  · simp only [h, if_pos]
    rw [addTags_expenses]
    intro e he
    rcases List.mem_append.mp he with hl | hr
    · exact Or.inl hl
    · rcases List.mem_singleton.mp hr with rfl
      exact Or.inr rfl
  · simp only [h, if_neg, ite_false]
    rcases hm : getOrCreateMerchant sd.merchant_name
        (match raw.raw_merchant_name with
         | some s => if s = "" then sd.merchant_name else s
         | none => sd.merchant_name) sd.category_id db with ⟨m, db2⟩
    simp only [hm]
    rw [addTags_expenses]
    have hmx := getOrCreateMerchant_expenses sd.merchant_name
      (match raw.raw_merchant_name with
       | some s => if s = "" then sd.merchant_name else s
       | none => sd.merchant_name) sd.category_id db
    rw [hm] at hmx
    intro e he
    rcases List.mem_append.mp he with hl | hr
    · rw [hmx] at hl
      exact Or.inl hl
    · rcases List.mem_singleton.mp hr with rfl
      exact Or.inr rfl

lemma applyRuleAction_discard (ru : RuleRow) (raw : RawRow) (st : RulesOutcome)
    (h : ru.action = "discard") :
    (applyRuleAction ru raw st).db.raws =
      st.db.raws.filter (fun x => x.id ≠ raw.id) ∧
    (applyRuleAction ru raw st).db.expenses = st.db.expenses := by
  rw [applyRuleAction, if_pos h]
  exact ⟨rfl, rfl⟩

lemma applyRuleAction_raws_subset (ru : RuleRow) (raw : RawRow)
    (st : RulesOutcome) :
    ∀ x ∈ (applyRuleAction ru raw st).db.raws, x ∈ st.db.raws := by
  rw [applyRuleAction]
  split
  · intro x hx
    exact List.mem_of_mem_filter hx
  split
  · intro x hx
    rw [show (ruleSaveAction raw ru.save_data st.db).raws = st.db.raws from
      ruleSaveAction_raws raw ru.save_data st.db] at hx
    exact hx
  · intro x hx
    exact hx

lemma applyRuleAction_expenses (ru : RuleRow) (raw : RawRow)
    (st : RulesOutcome) :
    ∀ e ∈ (applyRuleAction ru raw st).db.expenses,
      e ∈ st.db.expenses ∨ e.raw_expense_id = some raw.id := by
  rw [applyRuleAction]
  split
  · intro e he
    exact Or.inl he
  split
  · exact ruleSaveAction_expenses raw ru.save_data st.db
  · intro e he
    exact Or.inl he

/-- The inner loop is first-match-wins: it equals looking the record's
first matching rule up in order and applying exactly that rule's
action. -/
lemma applyRulesToRaw_eq_find (engine : RegexEngine) (raw : RawRow)
    (st : RulesOutcome) :
    ∀ rules, applyRulesToRaw engine rules raw st =
      match rules.find? (fun u => matchesRule engine raw u) with
      | none => st
      | some u => applyRuleAction u raw st
  | [] => rfl
  | ru :: rest => by
      rw [applyRulesToRaw]
      cases hm : matchesRule engine raw ru
      · simp only [List.find?, hm, Bool.false_eq_true, if_false]
        exact applyRulesToRaw_eq_find engine raw st rest
      · simp only [List.find?, hm, if_true]

lemma applyRulesToRaw_raws_subset (engine : RegexEngine)
    (rules : List RuleRow) (raw : RawRow) (st : RulesOutcome) :
    ∀ x ∈ (applyRulesToRaw engine rules raw st).db.raws, x ∈ st.db.raws := by
  rw [applyRulesToRaw_eq_find]
  rcases rules.find? (fun u => matchesRule engine raw u) with _ | u
  · intro x hx
    exact hx
  · exact applyRuleAction_raws_subset u raw st

lemma applyRulesToRaw_expenses (engine : RegexEngine)
    (rules : List RuleRow) (raw : RawRow) (st : RulesOutcome) :
    ∀ e ∈ (applyRulesToRaw engine rules raw st).db.expenses,
      e ∈ st.db.expenses ∨ e.raw_expense_id = some raw.id := by
  rw [applyRulesToRaw_eq_find]
  rcases rules.find? (fun u => matchesRule engine raw u) with _ | u
  · intro e he
    exact Or.inl he
  · exact applyRuleAction_expenses u raw st

/-- Invariant of the `apply_rules` outer loop: once a record's first
matching active rule is a discard, that record ends up deleted and never
acquires a finalized expense. -/
lemma applyRules_fold_discard (engine : RegexEngine) (active : List RuleRow)
    (r : RawRow) (ru : RuleRow)
    (hfind : active.find? (fun u => matchesRule engine r u) = some ru)
    (hact : ru.action = "discard") :
    ∀ (rs : List RawRow) (st : RulesOutcome),
      (∀ e ∈ st.db.expenses, e.raw_expense_id ≠ some r.id) →
      (r ∈ rs ∨ ∀ x ∈ st.db.raws, x.id ≠ r.id) →
      (∀ x ∈ rs, x ≠ r → x.id ≠ r.id) →
      (∀ x ∈ (rs.foldl (fun s y => applyRulesToRaw engine active y s) st).db.raws,
        x.id ≠ r.id) ∧
      (∀ e ∈ (rs.foldl (fun s y => applyRulesToRaw engine active y s) st).db.expenses,
        e.raw_expense_id ≠ some r.id)
  | [], st => by
      intro hexp hr _
      refine ⟨?_, hexp⟩
      rcases hr with h | h
      · exact absurd h (List.not_mem_nil r)
      · exact h
  | x :: rest, st => by
      intro hexp hr hids
      rw [List.foldl_cons]
      by_cases hxr : x = r
      · subst hxr
        have hstep : applyRulesToRaw engine active x st = applyRuleAction ru x st := by
          rw [applyRulesToRaw_eq_find, hfind]
        have hdisc := applyRuleAction_discard ru x st hact
        refine applyRules_fold_discard engine active x ru hfind hact rest _ ?_ ?_
          (fun y hy hne => hids y (List.mem_cons_of_mem _ hy) hne)
        · intro e he
          rw [hstep, hdisc.2] at he
          exact hexp e he
        · refine Or.inr ?_
          intro y hy
          rw [hstep, hdisc.1] at hy
          have := List.of_mem_filter hy
          simpa using this
      · refine applyRules_fold_discard engine active r ru hfind hact rest _ ?_ ?_
          (fun y hy hne => hids y (List.mem_cons_of_mem _ hy) hne)
        · intro e he
          rcases applyRulesToRaw_expenses engine active x st e he with hl | hr2
          · exact hexp e hl
          · rw [hr2]
            intro hc
            exact hids x (List.mem_cons_self _ _) hxr (Option.some.inj hc)
        · rcases hr with hrm | hrdel
          · rcases List.mem_cons.mp hrm with rfl | hrm2
            · exact absurd rfl hxr
            · exact Or.inl hrm2
          · refine Or.inr ?_
            intro y hy
            exact hrdel y (applyRulesToRaw_raws_subset engine active x st y hy)

/-- C7: `apply_rules` evaluates only the active rules, in their stored
order, and for each pending record exactly the first matching rule's
action is applied (the per-record loop equals a `find?` over the active
list).  Consequently a pending record whose first matching active rule
is a `discard` — e.g. a discard rule placed before a save rule that
would also match — is deleted and never saved as an expense. -/
theorem c7_first_match_discard (engine : RegexEngine) (db : DB) (r : RawRow)
    (ru : RuleRow)
    (hmem : r ∈ queueRaws db)
    (hids : (db.raws.map (fun x => x.id)).Nodup)
    (hfind : (db.rules.filter (fun u => u.active)).find?
        (fun u => matchesRule engine r u) = some ru)
    (hact : ru.action = "discard") :
    (∀ x ∈ (applyRules engine db).db.raws, x.id ≠ r.id) ∧
    (∀ e ∈ (applyRules engine db).db.expenses, e.raw_expense_id ≠ some r.id) ∧
    (∀ rules raw st, applyRulesToRaw engine rules raw st =
      match rules.find? (fun u => matchesRule engine raw u) with
      | none => st
      | some u => applyRuleAction u raw st) := by
  have hne : (db.rules.filter (fun u => u.active)).isEmpty = false := by
    rcases hl : db.rules.filter (fun u => u.active) with _ | ⟨a, l⟩
    · rw [hl] at hfind
      exact absurd hfind (by simp)
    · rw [hl]
      rfl
  have hq : r ∈ db.raws ∧ ¬ isProcessed db r.id := by
    rw [queueRaws] at hmem
    have h1 := List.mem_of_mem_filter hmem
    have h2 := List.of_mem_filter hmem
    simp only [decide_eq_true_eq, Bool.not_eq_true'] at h2
    exact ⟨h1, by simp [h2]⟩
  have hfold := applyRules_fold_discard engine
    (db.rules.filter (fun u => u.active)) r ru hfind hact (queueRaws db)
    ⟨db, 0, 0, 0⟩
    (by
      intro e he hc
      refine hq.2 ?_
      rw [isProcessed, List.any_eq_true]
      exact ⟨e, he, by simp [hc]⟩)
    (Or.inl hmem)
    (by
      intro x hx hne2 hc
      refine hne2 ?_
      exact List.inj_on_of_nodup_map hids
        (List.mem_of_mem_filter hx) hq.1 (by simpa using hc))
  rw [applyRules]
  simp only [hne, Bool.false_eq_true, if_false]
  exact ⟨hfold.1, hfold.2, fun rules raw st => applyRulesToRaw_eq_find engine raw st rules⟩

/-- A pending record from a demo-data import. -/
def rawDemo : RawRow :=
  { id := 1, bank_account_id := 1, external_id := "d1",
    transaction_date := ⟨2024, 4, 1⟩, amount := ⟨-500, 2⟩, currency := "EUR",
    raw_merchant_name := some "Demo", raw_description := some "demo row",
    source := "demo_data", source_file := none }

/-- An active discard rule on `source = "demo_data"`, stored first. -/
def ruleDiscardDemo : RuleRow :=
  { id := 1, active := true, field := "source", match_type := "exact",
    match_value := "demo_data", action := "discard",
    save_data := ⟨"", none, none, none, none⟩ }

/-- An active save rule that would also match, stored second. -/
def ruleSaveDemo : RuleRow :=
  { id := 2, active := true, field := "source", match_type := "exact",
    match_value := "demo_data", action := "save",
    save_data := ⟨"Demo Shop", none, some "demo", some [], none⟩ }

def dbRules : DB :=
  { dbEmpty with raws := [rawDemo], rules := [ruleDiscardDemo, ruleSaveDemo] }

/-- Witness for C7: with the discard rule stored before the save rule,
the demo record is deleted and no expense referencing it exists. -/
theorem c7_witness :
    (∀ x ∈ (applyRules (fun _ _ => .error ()) dbRules).db.raws, x.id ≠ 1) ∧
    (∀ e ∈ (applyRules (fun _ _ => .error ()) dbRules).db.expenses,
      e.raw_expense_id ≠ some 1) :=
  let h := c7_first_match_discard (fun _ _ => .error ()) dbRules rawDemo
    ruleDiscardDemo (by decide) (by decide) (by decide) (by decide)
  ⟨h.1, h.2.1⟩

/-- Direct evaluation of the rule pass on the same scenario: one record
processed, one discarded, none saved, and the queue row deleted. -/
theorem applyRules_demo_eval :
    (applyRules (fun _ _ => .error ()) dbRules).processed = 1 ∧
    (applyRules (fun _ _ => .error ()) dbRules).discarded = 1 ∧
    (applyRules (fun _ _ => .error ()) dbRules).saved = 0 ∧
    (applyRules (fun _ _ => .error ()) dbRules).db.raws = [] ∧
    (applyRules (fun _ _ => .error ()) dbRules).db.expenses = [] := by
  refine ⟨?_, ?_, ?_, ?_, ?_⟩ <;> decide

end ExpenseToolkit
